import Mathlib

/-!
# Verification development for `scratch/lab1_second.cc`

The script builds two CSMA segments joined by one point-to-point link, assigns
IPv4 addresses, installs a UDP echo server and a UDP echo client, populates the
global routing tables and runs the simulation.

The script itself (function `main`) is embedded statement by statement as
explicit state passing over a `World`.  The helper objects the script calls
(containers, link helpers, address helper, routing, applications, event queue)
belong to the simulation core, whose code is not part of the repository; they
are modelled from the written specification and each such definition says so.
-/

namespace Lab1Second

/-! ## Units -/

/-- Simulated time, in nanoseconds. -/
abbrev Time := Nat

/-- Data rate, in bits per second. -/
abbrev DataRate := Nat

/-- The script's `Seconds(s)` for a whole number of seconds. -/
def Seconds (s : Nat) : Time := s * 1000000000

/-- The script's `MicroSeconds(u)`. -/
def MicroSeconds (u : Nat) : Time := u * 1000

/-- The delay string `"<m>ms"`. -/
def MilliSeconds (m : Nat) : Time := m * 1000000

/-- The data-rate string `"<k>Mbps"`. -/
def Mbps (k : Nat) : DataRate := k * 1000000

/-- Number of values of a `uint32_t`. -/
def UINT32 : Nat := 4294967296

/-- Subtraction on `uint32_t` (wraps around below zero). -/
def uint32Sub (a b : Nat) : Nat := (a + UINT32 - b % UINT32) % UINT32

/-- Dotted-quad IPv4 address as a 32-bit number. -/
def ipv4 (a b c d : Nat) : Nat := ((a * 256 + b) * 256 + c) * 256 + d

/-! ## Data model -/

/-- Kind of a link and of the devices attached to it. -/
inductive LinkKind where
  | pointToPoint
  | csma
  deriving DecidableEq, Repr

/-- Modelled from the spec: a Channel (section 3), a medium with a data rate and
a propagation delay; the attached devices hold the relation. -/
structure Channel where
  kind : LinkKind
  dataRate : DataRate
  delay : Time
  deriving DecidableEq, Repr

/-- Modelled from the spec: a Device (section 3), owned by one node and attached
to one channel.  `id` is its creation index, `node` the global index of its
node, `channel` the creation index of its channel. -/
structure NetDevice where
  id : Nat
  kind : LinkKind
  node : Nat
  channel : Nat
  deriving DecidableEq, Repr

/-- Modelled from the spec: an IPv4 interface (section 3), the triple of a
device, its assigned address and the subnet mask. -/
structure Ipv4Interface where
  device : NetDevice
  address : Nat
  mask : Nat
  deriving DecidableEq, Repr

/-- The setup calls of the script that change or use the simulation core, in the
order they are issued. -/
inductive Step where
  | createNodes (count : Nat)
  | installPointToPoint
  | installCsma
  | installStack
  | setBase (network mask : Nat)
  | assign
  | installServer
  | installClient
  | populateRoutingTables
  | enablePcap (nodeid deviceid : Nat)
  | run
  | destroy
  deriving DecidableEq, Repr

/-- Whether a setup call adds a node, a device or an address to the topology. -/
def Step.changesTopology : Step → Bool
  | Step.createNodes _ => true
  | Step.installPointToPoint => true
  | Step.installCsma => true
  | Step.assign => true
  | _ => false

/-- Modelled from the spec: the error taxonomy of section 7, with the
out-of-range container lookup added. -/
inductive SetupError where
  | indexOutOfRange
  | configurationError
  | addressSpaceExhausted
  deriving DecidableEq, Repr

/-- State of the simulation core while the script sets the scenario up. -/
structure World where
  nNodes : Nat
  channels : List Channel
  devices : List NetDevice
  stackNodes : List Nat
  interfaces : List Ipv4Interface
  routing : Option (List NetDevice)
  pcap : List (Nat × Nat)
  trace : List Step
  deriving DecidableEq, Repr

/-- The core before the script has created anything. -/
def World.empty : World :=
  { nNodes := 0, channels := [], devices := [], stackNodes := [], interfaces := [],
    routing := none, pcap := [], trace := [] }

/-- Modelled from the spec: the ordered list of devices a node owns (section 3),
in the order they were installed on it. -/
def World.devicesOf (w : World) (node : Nat) : List NetDevice :=
  w.devices.filter (fun d => d.node == node)

/-! ## Containers -/

/-- Modelled from the spec: `NodeContainer::Create`, which creates `count` new
nodes; a node's identity is its creation index (section 3). -/
def NodeContainer.Create (w : World) (count : Nat) : List Nat × World :=
  (List.range' w.nNodes count,
    { w with nNodes := w.nNodes + count, trace := w.trace ++ [Step.createNodes count] })

/-- Modelled from the spec: indexed lookup in a container; an index that is not
below the size has no element. -/
def Container.Get {α : Type} (c : List α) (i : Nat) : Except SetupError α :=
  match c.get? i with
  | some x => Except.ok x
  | none => Except.error SetupError.indexOutOfRange

/-! ## Link helpers -/

/-- The attributes the script sets on a link helper before `Install`: the data
rate and the delay of the link. -/
structure LinkHelper where
  dataRate : DataRate
  delay : Time
  deriving DecidableEq, Repr

/-- Modelled from the spec: installing a point-to-point link (sections 3, 7, 8):
one new channel with exactly two devices, one on each of the two nodes; any
other number of nodes is a `ConfigurationError`. -/
def PointToPointHelper.Install (h : LinkHelper) (w : World) (nodes : List Nat) :
    Except SetupError (List NetDevice × World) :=
  match nodes with
  | [a, b] =>
    let ch := w.channels.length
    let devA : NetDevice :=
      { id := w.devices.length, kind := LinkKind.pointToPoint, node := a, channel := ch }
    let devB : NetDevice :=
      { id := w.devices.length + 1, kind := LinkKind.pointToPoint, node := b, channel := ch }
    Except.ok ([devA, devB],
      { w with
        channels := w.channels ++
          [{ kind := LinkKind.pointToPoint, dataRate := h.dataRate, delay := h.delay }]
        devices := w.devices ++ [devA, devB]
        trace := w.trace ++ [Step.installPointToPoint] })
  | _ => Except.error SetupError.configurationError

/-- Modelled from the spec: the loop of the shared-bus `Install` (section 3): one
CSMA device per node of the container, in container order, all on the channel
`ch`; `nextId` is the creation index of the next device. -/
def csmaDevicesFor (ch : Nat) : Nat → List Nat → List NetDevice
  | _, [] => []
  | nextId, nd :: rest =>
    { id := nextId, kind := LinkKind.csma, node := nd, channel := ch } ::
      csmaDevicesFor ch (nextId + 1) rest

/-- Modelled from the spec: installing a shared-bus link (section 3): one new
channel and one device per node, in container order. -/
def CsmaHelper.Install (h : LinkHelper) (w : World) (nodes : List Nat) :
    List NetDevice × World :=
  let devs := csmaDevicesFor w.channels.length w.devices.length nodes
  (devs,
    { w with
      channels := w.channels ++
        [{ kind := LinkKind.csma, dataRate := h.dataRate, delay := h.delay }]
      devices := w.devices ++ devs
      trace := w.trace ++ [Step.installCsma] })

/-- Modelled from the spec: `InternetStackHelper::Install`, which gives every
node of the container its IPv4 stack instance (section 3). -/
def InternetStackHelper.Install (w : World) (nodes : List Nat) : World :=
  { w with stackNodes := w.stackNodes ++ nodes, trace := w.trace ++ [Step.installStack] }

/-! ## Addressing -/

/-- Modelled from the spec: the address helper (sections 3, 4.3): the configured
base network and mask and the host number the next allocation will use. -/
structure Ipv4AddressHelper where
  network : Nat
  mask : Nat
  address : Nat
  deriving DecidableEq, Repr

/-- Modelled from the spec: `SetBase` configures the base network and mask;
allocation starts from the first usable host address (section 4.3). -/
def Ipv4AddressHelper.SetBase (w : World) (network mask : Nat) : Ipv4AddressHelper × World :=
  ({ network := network, mask := mask, address := 1 },
    { w with trace := w.trace ++ [Step.setBase network mask] })

/-- Largest usable host number of a subnet: the host part has
`UINT32 - mask` values, of which the first (network) and the last (broadcast)
are not usable. -/
def maxHost (mask : Nat) : Nat := UINT32 - mask - 2

/-- Modelled from the spec: `AssignAddress` (section 4.3) allocates the next
host address of the configured subnet in increasing numeric order and fails
with `AddressSpaceExhausted` when none is left. -/
def Ipv4AddressHelper.NewAddress (h : Ipv4AddressHelper) :
    Except SetupError (Nat × Ipv4AddressHelper) :=
  if h.address ≤ maxHost h.mask then
    Except.ok (h.network + h.address, { h with address := h.address + 1 })
  else
    Except.error SetupError.addressSpaceExhausted

/-- Modelled from the spec: the loop of `Assign` (sections 3, 4.3): one new
address per device, in container order; the first failure ends it. -/
def assignLoop : Ipv4AddressHelper → List NetDevice →
    Except SetupError (List Ipv4Interface × Ipv4AddressHelper)
  | h, [] => Except.ok ([], h)
  | h, d :: rest =>
    match h.NewAddress with
    | Except.error e => Except.error e
    | Except.ok (a, h1) =>
      match assignLoop h1 rest with
      | Except.error e => Except.error e
      | Except.ok (ifs, h2) =>
        Except.ok ({ device := d, address := a, mask := h.mask } :: ifs, h2)

/-- Modelled from the spec: `Assign` gives every device of the container an
interface with the next address of the configured subnet and returns the
interfaces in container order. -/
def Ipv4AddressHelper.Assign (h : Ipv4AddressHelper) (w : World) (devs : List NetDevice) :
    Except SetupError (List Ipv4Interface × Ipv4AddressHelper × World) :=
  match assignLoop h devs with
  | Except.error e => Except.error e
  | Except.ok (ifs, h1) =>
    Except.ok (ifs, h1,
      { w with interfaces := w.interfaces ++ ifs, trace := w.trace ++ [Step.assign] })

/-- Modelled from the spec: the lookup `GetAddress(i)` of an interface
container, the address of the interface at index `i`. -/
def Ipv4InterfaceContainer.GetAddress (c : List Ipv4Interface) (i : Nat) :
    Except SetupError Nat :=
  match Container.Get c i with
  | Except.ok ifc => Except.ok ifc.address
  | Except.error e => Except.error e

/-! ## Applications -/

/-- Modelled from the spec: the echo server application (section 3): its node,
listening port and start and stop times. -/
structure UdpEchoServer where
  node : Nat
  port : Nat
  startTime : Time
  stopTime : Time
  deriving DecidableEq, Repr

/-- Modelled from the spec: the echo client application (section 3): its node,
target address and port, packet count, interval, packet size and start and
stop times. -/
structure UdpEchoClient where
  node : Nat
  remoteAddress : Nat
  remotePort : Nat
  maxPackets : Nat
  interval : Time
  packetSize : Nat
  startTime : Time
  stopTime : Time
  deriving DecidableEq, Repr

/-- Modelled from the spec: `PopulateRoutingTables` (section 4.4) works on the
topology as it is at the moment of the call; the snapshot is recorded. -/
def Ipv4GlobalRoutingHelper.PopulateRoutingTables (w : World) : World :=
  { w with routing := some w.devices, trace := w.trace ++ [Step.populateRoutingTables] }

/-- Modelled from the spec: packet capture is per device, chosen by node index
and device index (sections 6, 9).  The call
`EnablePcap(name, nodeid, deviceid, promiscuous)` records the selection of the
device with index `deviceid` of the node with index `nodeid`. -/
def CsmaHelper.EnablePcap (w : World) (nodeid deviceid : Nat) : World :=
  { w with pcap := w.pcap ++ [(nodeid, deviceid)],
           trace := w.trace ++ [Step.enablePcap nodeid deviceid] }

/-- Modelled from the spec: the device a pcap selection `(nodeid, deviceid)`
denotes, the one at index `deviceid` in the node's ordered device list
(section 3), if it exists. -/
def World.pcapDevice (w : World) (sel : Nat × Nat) : Option NetDevice :=
  (w.devicesOf sel.1).get? sel.2

/-! ## The script -/

/-- The local variables of `main` after the topology is built (lines 65-110). -/
structure Links where
  nCsma : Nat
  csmaNodes_1 : List Nat
  csmaNodes_2 : List Nat
  p2pNodes : List Nat
  p2pDevices : List NetDevice
  csmaDevices_1 : List NetDevice
  csmaDevices_2 : List NetDevice
  world : World
  deriving DecidableEq, Repr

/-- The local variables of `main` after the addresses are assigned (lines 112-126). -/
structure Addressed extends Links where
  p2pInterfaces : List Ipv4Interface
  csmaInterfaces_1 : List Ipv4Interface
  csmaInterfaces_2 : List Ipv4Interface
  deriving DecidableEq, Repr

/-- The local variables of `main` after the applications are installed
(lines 128-146). -/
structure Script extends Addressed where
  nEchoServer : Nat
  serverApps : UdpEchoServer
  clientApps : UdpEchoClient
  deriving DecidableEq, Repr

/-- Line 65: `nCsma = nCsma == 0 ? 1 : nCsma`. -/
def normalise (nCsma : Nat) : Nat := if nCsma = 0 then 1 else nCsma

/-- Lines 65-110 of `main`: the nodes, the three links and the internet stack.
`nCsmaArg` is the value of `nCsma` after the command line is parsed. -/
def buildLinks (nCsmaArg : Nat) : Except SetupError Links := do
  let nCsma := normalise nCsmaArg
  let (csmaNodes_1, w) := NodeContainer.Create World.empty nCsma
  let (csmaNodes_2, w) := NodeContainer.Create w nCsma
  let last ← Container.Get csmaNodes_1 (uint32Sub nCsma 1)
  let first ← Container.Get csmaNodes_2 0
  let p2pNodes : List Nat := [] ++ [last] ++ [first]
  let pointToPoint : LinkHelper := { dataRate := Mbps 10, delay := MilliSeconds 2 }
  let (p2pDevices, w) ← PointToPointHelper.Install pointToPoint w p2pNodes
  let csma_1 : LinkHelper := { dataRate := Mbps 100, delay := MicroSeconds 10 }
  let (csmaDevices_1, w) := CsmaHelper.Install csma_1 w csmaNodes_1
  let csma_2 : LinkHelper := { dataRate := Mbps 100, delay := MicroSeconds 10 }
  let (csmaDevices_2, w) := CsmaHelper.Install csma_2 w csmaNodes_2
  let w := InternetStackHelper.Install w csmaNodes_1
  let w := InternetStackHelper.Install w csmaNodes_2
  return { nCsma := nCsma, csmaNodes_1 := csmaNodes_1, csmaNodes_2 := csmaNodes_2,
           p2pNodes := p2pNodes, p2pDevices := p2pDevices,
           csmaDevices_1 := csmaDevices_1, csmaDevices_2 := csmaDevices_2, world := w }

/-- The mask `255.255.255.0`. -/
def mask24 : Nat := ipv4 255 255 255 0

/-- Lines 112-126 of `main`: the three `SetBase` / `Assign` pairs. -/
def assignAddresses (l : Links) : Except SetupError Addressed := do
  let (address, w) := Ipv4AddressHelper.SetBase l.world (ipv4 192 168 3 0) mask24
  let (p2pInterfaces, _, w) ← address.Assign w l.p2pDevices
  let (address, w) := Ipv4AddressHelper.SetBase w (ipv4 192 168 1 0) mask24
  let (csmaInterfaces_1, _, w) ← address.Assign w l.csmaDevices_1
  let (address, w) := Ipv4AddressHelper.SetBase w (ipv4 192 168 2 0) mask24
  let (csmaInterfaces_2, _, w) ← address.Assign w l.csmaDevices_2
  return { l with world := w, p2pInterfaces := p2pInterfaces,
                  csmaInterfaces_1 := csmaInterfaces_1, csmaInterfaces_2 := csmaInterfaces_2 }

/-- Lines 128-146 of `main`: the echo server and the echo client. -/
def installApplications (a : Addressed) : Except SetupError Script := do
  let nEchoServer := 1
  let serverNode ← Container.Get a.csmaNodes_1 nEchoServer
  let w := { a.world with trace := a.world.trace ++ [Step.installServer] }
  let serverApps : UdpEchoServer :=
    { node := serverNode, port := 21, startTime := Seconds 1, stopTime := Seconds 10 }
  let remote ← Ipv4InterfaceContainer.GetAddress a.csmaInterfaces_1 nEchoServer
  let clientNode ← Container.Get a.csmaNodes_2 2
  let w := { w with trace := w.trace ++ [Step.installClient] }
  let clientApps : UdpEchoClient :=
    { node := clientNode, remoteAddress := remote, remotePort := 21, maxPackets := 2,
      interval := Seconds 3, packetSize := 1024, startTime := Seconds 4,
      stopTime := Seconds 10 }
  return { a with world := w, nEchoServer := nEchoServer, serverApps := serverApps,
                  clientApps := clientApps }

/-- Lines 148-153 of `main`: the routing computation and the two pcap
selections. -/
def finishSetup (s : Script) : Script :=
  let w := Ipv4GlobalRoutingHelper.PopulateRoutingTables s.world
  let w := CsmaHelper.EnablePcap w 2 1
  let w := CsmaHelper.EnablePcap w 4 0
  { s with world := w }

/-- Lines 46-153 of `main`: everything before `Simulator::Run`.  The `verbose`
flag only switches logging on and is left out. -/
def setup (nCsmaArg : Nat) : Except SetupError Script := do
  let l ← buildLinks nCsmaArg
  let a ← assignAddresses l
  let s ← installApplications a
  return finishSetup s

/-! ## Event queue and the echo client -/

/-- Modelled from the spec: the application state machine of section 4.5,
`Inactive -> Running -> Stopped`. -/
inductive AppState where
  | inactive
  | running
  | stopped
  deriving DecidableEq, Repr

/-- The events of an echo client: its start, its stop and a scheduled send. -/
inductive ClientEvent where
  | start
  | stop
  | send
  deriving DecidableEq, Repr

/-- Modelled from the spec: an Event (section 3), a scheduled time and what to
run then. -/
structure Event where
  time : Time
  kind : ClientEvent
  deriving DecidableEq, Repr

/-- Modelled from the spec: `Schedule` (section 4.1) keeps the queue in
non-decreasing time order; among events of equal time the one scheduled first
comes first. -/
def EventQueue.schedule (e : Event) : List Event → List Event
  | [] => [e]
  | x :: q => if e.time < x.time then e :: x :: q else x :: EventQueue.schedule e q

/-- Modelled from the spec: `Cancel` (section 4.1) of the pending send: a
cancelled event is never run. -/
def EventQueue.cancelSend (q : List Event) : List Event :=
  q.filter (fun e => e.kind != ClientEvent.send)

/-- State of the client while the queue is drained: the application state, the
number of datagrams sent, the times they were sent at, and the event queue. -/
structure ClientState where
  state : AppState
  sent : Nat
  log : List Time
  queue : List Event
  deriving DecidableEq, Repr

/-- Modelled from the spec: one send of the client (section 4.5) at time `now`:
the datagram is counted and logged, and the next send is scheduled one interval
later unless `MaxPackets` have been sent. -/
def clientSend (c : UdpEchoClient) (now : Time) (s : ClientState) : ClientState :=
  { s with
    sent := s.sent + 1
    log := s.log ++ [now]
    queue :=
      if s.sent + 1 < c.maxPackets then
        EventQueue.schedule { time := now + c.interval, kind := ClientEvent.send } s.queue
      else s.queue }

/-- Modelled from the spec: the client of section 4.5.  The transition to
`Running` at `StartTime` sends the first datagram immediately and schedules the
following sends; the transition to `Stopped` at `StopTime` cancels the pending
send.  A transition is taken only from its source state. -/
def clientHandle (c : UdpEchoClient) (e : Event) (s : ClientState) : ClientState :=
  match e.kind with
  | ClientEvent.start =>
    match s.state with
    | AppState.inactive => clientSend c e.time { s with state := AppState.running }
    | _ => s
  | ClientEvent.send =>
    match s.state with
    | AppState.running => clientSend c e.time s
    | _ => s
  | ClientEvent.stop =>
    match s.state with
    | AppState.running =>
      { s with state := AppState.stopped, queue := EventQueue.cancelSend s.queue }
    | _ => s

/-- Modelled from the spec: `Run` (section 4.1) pops the earliest event and
invokes it, until the queue is empty; `fuel` bounds the number of events. -/
def clientRun (c : UdpEchoClient) : Nat → ClientState → ClientState
  | 0, s => s
  | fuel + 1, s =>
    match s.queue with
    | [] => s
    | e :: q => clientRun c fuel (clientHandle c e { s with queue := q })

/-- The client before `Run`: inactive, with its start event and its stop event
scheduled, in this order (lines 145-146). -/
def clientInit (c : UdpEchoClient) : ClientState :=
  { state := AppState.inactive, sent := 0, log := [],
    queue := EventQueue.schedule { time := c.stopTime, kind := ClientEvent.stop }
      (EventQueue.schedule { time := c.startTime, kind := ClientEvent.start } []) }

/-- The run of the client to the end of its events: at most one start, one stop
and `MaxPackets` sends. -/
def clientFinal (c : UdpEchoClient) : ClientState :=
  clientRun c (c.maxPackets + 2) (clientInit c)

/-- The times at which the client sends a datagram, in order. -/
def clientSendTimes (c : UdpEchoClient) : List Time := (clientFinal c).log

/-- Number of send slots `start + k * interval` that lie before `stop`. -/
def sendSlots (start stop interval : Time) : Nat := (stop - start + interval - 1) / interval

/-! ## Global routing -/

/-- One step of a route: the channel that is crossed and the node that is
reached. -/
structure Hop where
  channel : Nat
  node : Nat
  deriving DecidableEq, Repr

/-- Node `u` has a device attached to channel `c`. -/
def attached (devs : List NetDevice) (u c : Nat) : Prop :=
  ∃ d ∈ devs, d.node = u ∧ d.channel = c

/-- Modelled from the spec: the edges of the topology graph (sections 3, 4.4):
from a node, over each channel one of its devices is attached to, to every
other node with a device on that channel. -/
def neighbours (devs : List NetDevice) (u : Nat) : List Hop :=
  (devs.filter (fun d => d.node == u)).flatMap (fun d =>
    (devs.filter (fun e => e.channel == d.channel && e.node != u)).map
      (fun e => { channel := d.channel, node := e.node }))

/-- Modelled from the spec: one step of the breadth-first computation
(section 4.4): a node that is not yet reached is recorded with the path that
reaches it. -/
def bfsOffer (visited : List (Nat × List Hop)) (path : List Hop) (h : Hop) :
    List (Nat × List Hop) :=
  if visited.any (fun v => v.1 == h.node) then visited
  else visited ++ [(h.node, path ++ [h])]

/-- Modelled from the spec: one breadth-first round (section 4.4): every node
reached so far offers each of its neighbours its own path extended by one
hop. -/
def bfsRound (devs : List NetDevice) (visited : List (Nat × List Hop)) :
    List (Nat × List Hop) :=
  visited.foldl
    (fun acc v => (neighbours devs v.1).foldl (fun acc h => bfsOffer acc v.2 h) acc)
    visited

/-- Modelled from the spec: single-source shortest path over equal-weight
edges, breadth-first (section 4.4): the nodes reached from `src` within
`rounds` hops, each with a shortest path. -/
def bfs (devs : List NetDevice) (src : Nat) : Nat → List (Nat × List Hop)
  | 0 => [(src, [])]
  | rounds + 1 => bfsRound devs (bfs devs src rounds)

/-- The shortest path from `src` to `dst` found within `rounds` hops, none when
`dst` is not reached. -/
def shortestRoute (devs : List NetDevice) (rounds src dst : Nat) : Option (List Hop) :=
  ((bfs devs src rounds).find? (fun v => v.1 == dst)).map (fun v => v.2)

/-- Modelled from the spec: the route the tables populated by
`PopulateRoutingTables` give from node `src` to node `dst` (section 4.4): the
shortest path in the topology snapshot taken by the call, none when the tables
were not populated or `dst` is not reachable. -/
def World.route (w : World) (src dst : Nat) : Option (List Hop) :=
  match w.routing with
  | none => none
  | some devs => shortestRoute devs w.nNodes src dst

/-- A path in the topology graph from `u` to `v`: every hop is an edge out of
the node reached so far, and the last node reached is `v`. -/
def validPath (devs : List NetDevice) : Nat → List Hop → Nat → Bool
  | u, [], v => u == v
  | u, h :: rest, v => decide (h ∈ neighbours devs u) && validPath devs h.node rest v

/-! ## Channels and delivery -/

/-- Modelled from the spec: transmission delay = frame size / data rate
(section 4.2), in nanoseconds for a frame of `bytes` bytes. -/
def Channel.transmissionDelay (c : Channel) (bytes : Nat) : Time :=
  bytes * 8 * 1000000000 / c.dataRate

/-- Modelled from the spec: `Channel.Deliver` (section 4.2) schedules the
receive at `now + transmissionDelay + propagationDelay`. -/
def Channel.deliveryDelay (c : Channel) (bytes : Nat) : Time :=
  c.transmissionDelay bytes + c.delay

/-- Modelled from the spec: hop-by-hop delivery (sections 4.2, 4.3): the arrival
time of a frame of `bytes` bytes that starts along `path` at time `t` and is
forwarded at once by every node on the way; none if a channel of the path does
not exist. -/
def World.travel (w : World) (bytes : Nat) : List Hop → Time → Option Time
  | [], t => some t
  | h :: rest, t =>
    match w.channels.get? h.channel with
    | none => none
    | some c => World.travel w bytes rest (t + c.deliveryDelay bytes)

/-- Modelled from the spec: the per-node address tables (section 2): the node
that owns the interface with address `addr`, if any. -/
def World.nodeOfAddress (w : World) (addr : Nat) : Option Nat :=
  (w.interfaces.find? (fun i => i.address == addr)).map (fun i => i.device.node)

/-- Modelled from the spec: `Send` (section 4.3): the arrival time at node `dst`
of a datagram of `bytes` bytes sent by node `src` at time `t`; none (silent
drop) if there is no route. -/
def World.deliver (w : World) (bytes src dst : Nat) (t : Time) : Option Time :=
  match w.route src dst with
  | none => none
  | some path => w.travel bytes path t

/-! ## Running the scenario -/

/-- What a run of the scenario produces: the times the client sent a datagram,
the times a datagram was delivered to the running server, and the times an echo
was delivered to the running client. -/
structure SimResult where
  sent : List Time
  serverRx : List Time
  clientRx : List Time
  deriving DecidableEq, Repr

/-- Modelled from the spec: an application handles what arrives from its start
time on and before its stop time (section 4.5); start and stop events are
scheduled before the run and so precede an arrival at the same time
(section 4.1). -/
def runningAt (start stop t : Time) : Bool := decide (start ≤ t) && decide (t < stop)

/-- Modelled from the spec: the server side of section 4.5.  Arrival at the
server of the datagram the client sends at time `t`: it is routed to the node
that owns the destination address and is taken by the server if that is the
server's node, the port is the server's port and the server is running. -/
def Script.toServer (s : Script) (t : Time) : Option Time :=
  match s.world.nodeOfAddress s.clientApps.remoteAddress with
  | none => none
  | some dst =>
    match s.world.deliver s.clientApps.packetSize s.clientApps.node dst t with
    | none => none
    | some t1 =>
      if dst = s.serverApps.node ∧ s.clientApps.remotePort = s.serverApps.port ∧
          runningAt s.serverApps.startTime s.serverApps.stopTime t1 = true
      then some t1 else none

/-- Modelled from the spec: the echo of section 4.5.  Arrival at the client of
the echo the server sends at time `t`: the payload goes back unchanged to the
sender and is taken by the client if it is running. -/
def Script.toClient (s : Script) (t : Time) : Option Time :=
  match s.world.deliver s.clientApps.packetSize s.serverApps.node s.clientApps.node t with
  | none => none
  | some t1 =>
    if runningAt s.clientApps.startTime s.clientApps.stopTime t1 = true then some t1
    else none

/-- Modelled from the spec: `Simulator::Run` on the scenario (sections 4.1, 4.2,
4.5): the client sends by its state machine, every datagram travels its route
to the server, and the server echoes each datagram back at once. -/
def Simulator.Run (s : Script) : SimResult :=
  let sent := clientSendTimes s.clientApps
  let serverRx := sent.filterMap s.toServer
  { sent := sent, serverRx := serverRx, clientRx := serverRx.filterMap s.toClient }

/-- The function `main`: the setup, then `Simulator::Run` and
`Simulator::Destroy`. -/
def main (nCsmaArg : Nat) : Except SetupError (Script × SimResult) := do
  let s ← setup nCsmaArg
  let r := Simulator.Run s
  let w := { s.world with trace := s.world.trace ++ [Step.run] }
  let w := { w with trace := w.trace ++ [Step.destroy] }
  return ({ s with world := w }, r)

/-! ## Closed forms of the setup stages -/

theorem normalise_pos (nCsma : Nat) : 1 ≤ normalise nCsma := by
  unfold normalise; split <;> omega

theorem normalise_lt {nCsma : Nat} (h : nCsma < UINT32) : normalise nCsma < UINT32 := by
  unfold normalise UINT32 at *; split <;> omega

theorem uint32Sub_one {n : Nat} (h1 : 1 ≤ n) (h2 : n < UINT32) : uint32Sub n 1 = n - 1 := by
  unfold uint32Sub UINT32 at *
  omega

theorem get_range' (a n i : Nat) (h : i < n) :
    Container.Get (List.range' a n) i = Except.ok (a + i) := by
  simp [Container.Get, List.get?_eq_getElem?, List.getElem?_range', h]

theorem csmaDevicesFor_length (ch : Nat) (nodes : List Nat) (nextId : Nat) :
    (csmaDevicesFor ch nextId nodes).length = nodes.length := by
  induction nodes generalizing nextId with
  | nil => rfl
  | cons nd rest ih => simp [csmaDevicesFor, ih]

theorem buildLinks_eq (nCsma : Nat) (h : nCsma < UINT32) :
    buildLinks nCsma = Except.ok
      { nCsma := normalise nCsma
        csmaNodes_1 := List.range' 0 (normalise nCsma)
        csmaNodes_2 := List.range' (normalise nCsma) (normalise nCsma)
        p2pNodes := [normalise nCsma - 1, normalise nCsma]
        p2pDevices := [⟨0, LinkKind.pointToPoint, normalise nCsma - 1, 0⟩,
                       ⟨1, LinkKind.pointToPoint, normalise nCsma, 0⟩]
        csmaDevices_1 := csmaDevicesFor 1 2 (List.range' 0 (normalise nCsma))
        csmaDevices_2 := csmaDevicesFor 2 (2 + normalise nCsma)
          (List.range' (normalise nCsma) (normalise nCsma))
        world :=
          { nNodes := normalise nCsma + normalise nCsma
            channels := [⟨LinkKind.pointToPoint, Mbps 10, MilliSeconds 2⟩,
                         ⟨LinkKind.csma, Mbps 100, MicroSeconds 10⟩,
                         ⟨LinkKind.csma, Mbps 100, MicroSeconds 10⟩]
            devices := [⟨0, LinkKind.pointToPoint, normalise nCsma - 1, 0⟩,
                        ⟨1, LinkKind.pointToPoint, normalise nCsma, 0⟩] ++
              (csmaDevicesFor 1 2 (List.range' 0 (normalise nCsma)) ++
               csmaDevicesFor 2 (2 + normalise nCsma)
                (List.range' (normalise nCsma) (normalise nCsma)))
            stackNodes := List.range' 0 (normalise nCsma) ++
              List.range' (normalise nCsma) (normalise nCsma)
            interfaces := []
            routing := none
            pcap := []
            trace := [Step.createNodes (normalise nCsma), Step.createNodes (normalise nCsma),
              Step.installPointToPoint, Step.installCsma, Step.installCsma,
              Step.installStack, Step.installStack] } } := by
  have h1 := normalise_pos nCsma
  have h2 := normalise_lt h
  simp only [buildLinks]
  generalize normalise nCsma = n at *
  simp only [NodeContainer.Create, World.empty, uint32Sub_one h1 h2,
    get_range' 0 n (n - 1) (by omega), Nat.zero_add, get_range' n n 0 (by omega)]
  simp [bind, Except.bind, pure, Except.pure, PointToPointHelper.Install, CsmaHelper.Install,
    InternetStackHelper.Install, csmaDevicesFor_length]
  rw [show n + 1 + 1 = 2 + n by omega]

theorem csmaDevicesFor_range' (ch : Nat) (n : Nat) (nextId a : Nat) :
    csmaDevicesFor ch nextId (List.range' a n) =
      (List.range n).map (fun i => (⟨nextId + i, LinkKind.csma, a + i, ch⟩ : NetDevice)) := by
  induction n generalizing nextId a with
  | zero => rfl
  | succ n ih =>
    rw [List.range'_succ, csmaDevicesFor, ih, List.range_succ_eq_map, List.map_cons, List.map_map]
    simp only [Nat.add_zero, List.cons.injEq, true_and]
    apply List.map_congr_left
    intro i _
    simp only [Function.comp, NetDevice.mk.injEq, true_and, and_true]
    omega

theorem maxHost_mask24 : maxHost mask24 = 254 := by decide

theorem assignLoop_map (h : Ipv4AddressHelper) (n : Nat) (f : Nat → NetDevice)
    (hn : h.address + n ≤ maxHost h.mask + 1) :
    assignLoop h ((List.range n).map f) = Except.ok
      ((List.range n).map (fun i => (⟨f i, h.network + (h.address + i), h.mask⟩ : Ipv4Interface)),
        { h with address := h.address + n }) := by
  induction n generalizing h f with
  | zero => rfl
  | succ n ih =>
    rw [List.range_succ_eq_map, List.map_cons, List.map_map, assignLoop]
    have h1 : h.address ≤ maxHost h.mask := by omega
    simp only [Ipv4AddressHelper.NewAddress, h1, if_true]
    rw [ih]
    · simp only [List.map_cons, List.map_map, Nat.add_zero, Except.ok.injEq, Prod.mk.injEq,
        List.cons.injEq, true_and]
      refine ⟨?_, ?_⟩
      · apply List.map_congr_left
        intro i _
        simp only [Function.comp, Ipv4Interface.mk.injEq, true_and, and_true]
        omega
      · simp only [Ipv4AddressHelper.mk.injEq, true_and]
        omega
    · simp only
      omega

theorem assignLoop_two (h : Ipv4AddressHelper) (d0 d1 : NetDevice)
    (hn : h.address + 2 ≤ maxHost h.mask + 1) :
    assignLoop h [d0, d1] = Except.ok
      ([⟨d0, h.network + h.address, h.mask⟩, ⟨d1, h.network + (h.address + 1), h.mask⟩],
        { h with address := h.address + 2 }) := by
  have h1 : h.address ≤ maxHost h.mask := by omega
  have h2 : h.address + 1 ≤ maxHost h.mask := by omega
  simp only [assignLoop, Ipv4AddressHelper.NewAddress, h1, h2, if_true]

theorem assignAddresses_eq (l : Links) (d0 d1 : NetDevice) (n : Nat) (f1 f2 : Nat → NetDevice)
    (hp : l.p2pDevices = [d0, d1]) (h1 : l.csmaDevices_1 = (List.range n).map f1)
    (h2 : l.csmaDevices_2 = (List.range n).map f2) (hn : n ≤ 254) :
    assignAddresses l = Except.ok
      { toLinks :=
          { l with
            world :=
              { l.world with
                interfaces := l.world.interfaces ++
                  [⟨d0, ipv4 192 168 3 0 + 1, mask24⟩, ⟨d1, ipv4 192 168 3 0 + 2, mask24⟩] ++
                  (List.range n).map (fun i =>
                    (⟨f1 i, ipv4 192 168 1 0 + (1 + i), mask24⟩ : Ipv4Interface)) ++
                  (List.range n).map (fun i =>
                    (⟨f2 i, ipv4 192 168 2 0 + (1 + i), mask24⟩ : Ipv4Interface))
                trace := l.world.trace ++
                  [Step.setBase (ipv4 192 168 3 0) mask24, Step.assign,
                   Step.setBase (ipv4 192 168 1 0) mask24, Step.assign,
                   Step.setBase (ipv4 192 168 2 0) mask24, Step.assign] } }
        p2pInterfaces :=
          [⟨d0, ipv4 192 168 3 0 + 1, mask24⟩, ⟨d1, ipv4 192 168 3 0 + 2, mask24⟩]
        csmaInterfaces_1 := (List.range n).map (fun i =>
          (⟨f1 i, ipv4 192 168 1 0 + (1 + i), mask24⟩ : Ipv4Interface))
        csmaInterfaces_2 := (List.range n).map (fun i =>
          (⟨f2 i, ipv4 192 168 2 0 + (1 + i), mask24⟩ : Ipv4Interface)) } := by
  unfold assignAddresses
  simp only [Ipv4AddressHelper.SetBase, Ipv4AddressHelper.Assign, hp, h1, h2]
  rw [assignLoop_two _ d0 d1 (by simp only [maxHost_mask24]; omega),
    assignLoop_map _ n f1 (by simp only [maxHost_mask24]; omega),
    assignLoop_map _ n f2 (by simp only [maxHost_mask24]; omega)]
  simp [bind, Except.bind, pure, Except.pure]

theorem range'_get? (a n i : Nat) (h : i < n) : (List.range' a n).get? i = some (a + i) := by
  simp [List.get?_eq_getElem?, List.getElem?_range', h]

theorem map_range_get? {α : Type} (f : Nat → α) (n i : Nat) (h : i < n) :
    ((List.range n).map f).get? i = some (f i) := by
  simp [List.get?_eq_getElem?, List.getElem?_range, h]

theorem installApplications_eq (a : Addressed) (x z : Nat) (ifc : Ipv4Interface)
    (h1 : a.csmaNodes_1.get? 1 = some x) (h2 : a.csmaInterfaces_1.get? 1 = some ifc)
    (h3 : a.csmaNodes_2.get? 2 = some z) :
    installApplications a = Except.ok
      { toAddressed :=
          { a with
            world := { a.world with
              trace := a.world.trace ++ [Step.installServer] ++ [Step.installClient] } }
        nEchoServer := 1
        serverApps := ⟨x, 21, Seconds 1, Seconds 10⟩
        clientApps := ⟨z, ifc.address, 21, 2, Seconds 3, 1024, Seconds 4, Seconds 10⟩ } := by
  unfold installApplications
  simp only [Container.Get, Ipv4InterfaceContainer.GetAddress, h1, h2, h3, bind, Except.bind,
    pure, Except.pure]

theorem setup_eq (nCsma : Nat) (h : nCsma < UINT32) (h3 : 3 ≤ normalise nCsma)
    (h254 : normalise nCsma ≤ 254) :
    setup nCsma = Except.ok
      { nCsma := normalise nCsma
        csmaNodes_1 := List.range' 0 (normalise nCsma)
        csmaNodes_2 := List.range' (normalise nCsma) (normalise nCsma)
        p2pNodes := [normalise nCsma - 1, normalise nCsma]
        p2pDevices := [⟨0, LinkKind.pointToPoint, normalise nCsma - 1, 0⟩,
                       ⟨1, LinkKind.pointToPoint, normalise nCsma, 0⟩]
        csmaDevices_1 := (List.range (normalise nCsma)).map
          (fun i => (⟨2 + i, LinkKind.csma, i, 1⟩ : NetDevice))
        csmaDevices_2 := (List.range (normalise nCsma)).map
          (fun i => (⟨2 + normalise nCsma + i, LinkKind.csma, normalise nCsma + i, 2⟩ : NetDevice))
        p2pInterfaces :=
          [⟨⟨0, LinkKind.pointToPoint, normalise nCsma - 1, 0⟩, ipv4 192 168 3 0 + 1, mask24⟩,
           ⟨⟨1, LinkKind.pointToPoint, normalise nCsma, 0⟩, ipv4 192 168 3 0 + 2, mask24⟩]
        csmaInterfaces_1 := (List.range (normalise nCsma)).map
          (fun i => (⟨⟨2 + i, LinkKind.csma, i, 1⟩, ipv4 192 168 1 0 + (1 + i), mask24⟩ :
            Ipv4Interface))
        csmaInterfaces_2 := (List.range (normalise nCsma)).map
          (fun i => (⟨⟨2 + normalise nCsma + i, LinkKind.csma, normalise nCsma + i, 2⟩,
            ipv4 192 168 2 0 + (1 + i), mask24⟩ : Ipv4Interface))
        nEchoServer := 1
        serverApps := ⟨1, 21, Seconds 1, Seconds 10⟩
        clientApps := ⟨normalise nCsma + 2, ipv4 192 168 1 0 + 2, 21, 2, Seconds 3, 1024,
          Seconds 4, Seconds 10⟩
        world :=
          { nNodes := normalise nCsma + normalise nCsma
            channels := [⟨LinkKind.pointToPoint, Mbps 10, MilliSeconds 2⟩,
                         ⟨LinkKind.csma, Mbps 100, MicroSeconds 10⟩,
                         ⟨LinkKind.csma, Mbps 100, MicroSeconds 10⟩]
            devices := [⟨0, LinkKind.pointToPoint, normalise nCsma - 1, 0⟩,
                        ⟨1, LinkKind.pointToPoint, normalise nCsma, 0⟩] ++
              ((List.range (normalise nCsma)).map
                (fun i => (⟨2 + i, LinkKind.csma, i, 1⟩ : NetDevice)) ++
               (List.range (normalise nCsma)).map
                (fun i => (⟨2 + normalise nCsma + i, LinkKind.csma, normalise nCsma + i, 2⟩ :
                  NetDevice)))
            stackNodes := List.range' 0 (normalise nCsma) ++
              List.range' (normalise nCsma) (normalise nCsma)
            interfaces :=
              [⟨⟨0, LinkKind.pointToPoint, normalise nCsma - 1, 0⟩, ipv4 192 168 3 0 + 1, mask24⟩,
               ⟨⟨1, LinkKind.pointToPoint, normalise nCsma, 0⟩, ipv4 192 168 3 0 + 2, mask24⟩] ++
              ((List.range (normalise nCsma)).map
                (fun i => (⟨⟨2 + i, LinkKind.csma, i, 1⟩, ipv4 192 168 1 0 + (1 + i), mask24⟩ :
                  Ipv4Interface)) ++
               (List.range (normalise nCsma)).map
                (fun i => (⟨⟨2 + normalise nCsma + i, LinkKind.csma, normalise nCsma + i, 2⟩,
                  ipv4 192 168 2 0 + (1 + i), mask24⟩ : Ipv4Interface)))
            routing := some ([⟨0, LinkKind.pointToPoint, normalise nCsma - 1, 0⟩,
                        ⟨1, LinkKind.pointToPoint, normalise nCsma, 0⟩] ++
              ((List.range (normalise nCsma)).map
                (fun i => (⟨2 + i, LinkKind.csma, i, 1⟩ : NetDevice)) ++
               (List.range (normalise nCsma)).map
                (fun i => (⟨2 + normalise nCsma + i, LinkKind.csma, normalise nCsma + i, 2⟩ :
                  NetDevice))))
            pcap := [(2, 1), (4, 0)]
            trace := [Step.createNodes (normalise nCsma), Step.createNodes (normalise nCsma),
              Step.installPointToPoint, Step.installCsma, Step.installCsma,
              Step.installStack, Step.installStack,
              Step.setBase (ipv4 192 168 3 0) mask24, Step.assign,
              Step.setBase (ipv4 192 168 1 0) mask24, Step.assign,
              Step.setBase (ipv4 192 168 2 0) mask24, Step.assign,
              Step.installServer, Step.installClient, Step.populateRoutingTables,
              Step.enablePcap 2 1, Step.enablePcap 4 0] } } := by
  unfold setup
  rw [buildLinks_eq nCsma h]
  generalize normalise nCsma = n at *
  simp only [bind, Except.bind]
  rw [assignAddresses_eq _ ⟨0, LinkKind.pointToPoint, n - 1, 0⟩ ⟨1, LinkKind.pointToPoint, n, 0⟩ n
    (fun i => ⟨2 + i, LinkKind.csma, 0 + i, 1⟩) (fun i => ⟨2 + n + i, LinkKind.csma, n + i, 2⟩)
    rfl (csmaDevicesFor_range' 1 n 2 0) (csmaDevicesFor_range' 2 n (2 + n) n) h254]
  simp only []
  rw [installApplications_eq _ (0 + 1) (n + 2)
    ⟨⟨2 + 1, LinkKind.csma, 0 + 1, 1⟩, ipv4 192 168 1 0 + (1 + 1), mask24⟩
    (range'_get? 0 n 1 (by omega)) (map_range_get? _ n 1 (by omega))
    (range'_get? n n 2 (by omega))]
  simp [pure, Except.pure, finishSetup, CsmaHelper.EnablePcap,
    Ipv4GlobalRoutingHelper.PopulateRoutingTables, csmaDevicesFor_range']

/-! ## The default scenario -/

/-- C1: with the default `nCsma = 3`, `main` builds two CSMA segments of 3 nodes
each, 6 distinct nodes in total; the echo server listens on port 21 on the node
at index 1 of segment 1; the echo client is on the node at index 2 of segment 2
with MaxPackets 2, PacketSize 1024, Interval 3 s and start time 4 s; both
applications stop at 10 s. -/
theorem C1_default_scenario :
    ∃ s r, main 3 = Except.ok (s, r) ∧
      s.nCsma = 3 ∧ s.nEchoServer = 1 ∧
      s.csmaNodes_1 = [0, 1, 2] ∧ s.csmaNodes_2 = [3, 4, 5] ∧
      s.csmaDevices_1.map (fun d => (d.node, d.channel)) = [(0, 1), (1, 1), (2, 1)] ∧
      s.csmaDevices_2.map (fun d => (d.node, d.channel)) = [(3, 2), (4, 2), (5, 2)] ∧
      s.world.nNodes = 6 ∧ (s.csmaNodes_1 ++ s.csmaNodes_2).Nodup ∧
      s.serverApps.port = 21 ∧
      s.csmaNodes_1.get? 1 = some s.serverApps.node ∧
      s.csmaNodes_2.get? 2 = some s.clientApps.node ∧
      s.clientApps.maxPackets = 2 ∧ s.clientApps.packetSize = 1024 ∧
      s.clientApps.interval = Seconds 3 ∧ s.clientApps.startTime = Seconds 4 ∧
      s.serverApps.stopTime = Seconds 10 ∧ s.clientApps.stopTime = Seconds 10 := by
  refine ⟨_, _, rfl, ?_⟩
  decide

/-- C3: in the default scenario the route from the client (node 5) to the server
(node 1) crosses CSMA segment 2, the point-to-point link and CSMA segment 1; a
1024-byte frame takes 91920 ns, 2819200 ns and 91920 ns over them, 3003040 ns in
all; the datagrams sent at 4 s and 7 s are delivered to the server at
4.00300304 s and 7.00300304 s, within the server's running time from 1 s to
10 s, and the echoes are delivered to the client at 4.00600608 s and
7.00600608 s, before its stop at 10 s; exactly 2 datagrams and 2 echoes are
delivered. -/
theorem C3_default_deliveries :
    ∃ s r, main 3 = Except.ok (s, r) ∧
      s.world.channels =
        [⟨LinkKind.pointToPoint, 10000000, 2000000⟩, ⟨LinkKind.csma, 100000000, 10000⟩,
         ⟨LinkKind.csma, 100000000, 10000⟩] ∧
      s.world.channels.map (fun c => c.deliveryDelay 1024) = [2819200, 91920, 91920] ∧
      s.clientApps.node = 5 ∧ s.serverApps.node = 1 ∧
      s.world.nodeOfAddress s.clientApps.remoteAddress = some 1 ∧
      s.world.route 5 1 = some [⟨2, 3⟩, ⟨0, 2⟩, ⟨1, 1⟩] ∧
      s.world.route 1 5 = some [⟨1, 2⟩, ⟨0, 3⟩, ⟨2, 5⟩] ∧
      91920 + 2819200 + 91920 = 3003040 ∧
      s.world.deliver 1024 5 1 4000000000 = some (4000000000 + 3003040) ∧
      s.world.deliver 1024 5 1 7000000000 = some (7000000000 + 3003040) ∧
      r.sent = [4000000000, 7000000000] ∧
      r.serverRx = [4003003040, 7003003040] ∧
      r.clientRx = [4006006080, 7006006080] ∧
      r.serverRx.length = 2 ∧ r.clientRx.length = 2 ∧
      s.serverApps.startTime = 1000000000 ∧ s.serverApps.stopTime = 10000000000 ∧
      s.clientApps.stopTime = 10000000000 ∧
      (∀ t ∈ r.serverRx, s.serverApps.startTime < t ∧ t < s.serverApps.stopTime) ∧
      (∀ t ∈ r.clientRx, t < s.clientApps.stopTime) := by
  refine ⟨_, _, rfl, ?_⟩
  decide

/-- C10: in the default scenario the two `EnablePcap` calls select exactly the
pairs (node 2, device 1) and (node 4, device 0); node 2 owns the point-to-point
device as device 0 and its segment-1 CSMA device as device 1, node 4 owns only
its segment-2 CSMA device, so each selected device is a CSMA device of the
selected node, and no device of another node is selected. -/
theorem C10_pcap_selection :
    ∃ s r, main 3 = Except.ok (s, r) ∧
      s.world.pcap = [(2, 1), (4, 0)] ∧
      s.world.devicesOf 2 =
        [⟨0, LinkKind.pointToPoint, 2, 0⟩, ⟨4, LinkKind.csma, 2, 1⟩] ∧
      s.world.devicesOf 4 = [⟨6, LinkKind.csma, 4, 2⟩] ∧
      s.world.pcapDevice (2, 1) = some ⟨4, LinkKind.csma, 2, 1⟩ ∧
      s.world.pcapDevice (4, 0) = some ⟨6, LinkKind.csma, 4, 2⟩ ∧
      s.p2pDevices.get? 0 = some ⟨0, LinkKind.pointToPoint, 2, 0⟩ ∧
      s.csmaDevices_1.get? 2 = some ⟨4, LinkKind.csma, 2, 1⟩ ∧
      s.csmaDevices_2.get? 1 = some ⟨6, LinkKind.csma, 4, 2⟩ ∧
      (∀ d ∈ s.p2pDevices, d.node ≠ 4) ∧
      (∀ sel ∈ s.world.pcap, ∃ d, s.world.pcapDevice sel = some d ∧
        d.kind = LinkKind.csma ∧ d.node = sel.1 ∧ (sel.1 = 2 ∨ sel.1 = 4)) := by
  refine ⟨_, _, rfl, ?_⟩
  decide

/-! ## The point-to-point link -/

/-- C9: for every 32-bit value of `nCsma` the normalised `n` is at least 1 and
`n - 1` does not wrap around; the lookups `csmaNodes_1.Get(n - 1)` and
`csmaNodes_2.Get(0)` succeed and give the last node of segment 1 (node `n - 1`)
and the first node of segment 2 (node `n`), two distinct nodes among the `2n`
nodes of the two segments; the point-to-point link has exactly two devices, one
on each of them; with the default `nCsma = 3` the endpoints are nodes 2 and 3. -/
theorem C9_pointToPoint_endpoints (nCsma : Nat) (h : nCsma < UINT32) :
    1 ≤ normalise nCsma ∧ uint32Sub (normalise nCsma) 1 + 1 = normalise nCsma ∧
    (∃ l, buildLinks nCsma = Except.ok l ∧
      l.nCsma = normalise nCsma ∧
      l.csmaNodes_1.length = normalise nCsma ∧ l.csmaNodes_2.length = normalise nCsma ∧
      Container.Get l.csmaNodes_1 (uint32Sub l.nCsma 1) = Except.ok (normalise nCsma - 1) ∧
      Container.Get l.csmaNodes_2 0 = Except.ok (normalise nCsma) ∧
      l.csmaNodes_1.getLast? = some (normalise nCsma - 1) ∧
      l.csmaNodes_2.head? = some (normalise nCsma) ∧
      l.p2pNodes = [normalise nCsma - 1, normalise nCsma] ∧
      normalise nCsma - 1 ≠ normalise nCsma ∧
      l.world.nNodes = 2 * normalise nCsma ∧
      l.csmaNodes_1 ++ l.csmaNodes_2 = List.range l.world.nNodes ∧
      (∀ x ∈ l.p2pNodes, x < l.world.nNodes) ∧
      l.p2pDevices.length = 2 ∧
      l.p2pDevices.map (fun d => d.node) = l.p2pNodes ∧
      l.world.devices.filter (fun d => d.kind == LinkKind.pointToPoint) = l.p2pDevices ∧
      l.world.devices.filter (fun d => d.channel == 0) = l.p2pDevices) ∧
    (∃ l, buildLinks 3 = Except.ok l ∧ l.p2pNodes = [2, 3]) := by
  have h1 := normalise_pos nCsma
  have h2 := normalise_lt h
  refine ⟨h1, by rw [uint32Sub_one h1 h2]; omega, ⟨_, buildLinks_eq nCsma h, ?_⟩,
    ⟨_, rfl, by decide⟩⟩
  generalize normalise nCsma = n at *
  refine ⟨rfl, by simp, by simp, ?_, get_range' n n 0 (by omega), ?_, ?_, rfl, by omega,
    by simp only []; omega, ?_, ?_, rfl, rfl, ?_, ?_⟩
  · simp only [uint32Sub_one h1 h2]
    have := get_range' 0 n (n - 1) (by omega)
    simpa using this
  · simp [List.getLast?_range', show n ≠ 0 by omega]
  · simp [List.head?_range', show n ≠ 0 by omega]
  · simp only [List.range_eq_range']
    have := List.range'_append 0 n n 1
    simpa using this
  · simp; omega
  · simp [csmaDevicesFor_range', List.filter_append, List.filter_map]
  · simp [csmaDevicesFor_range', List.filter_append, List.filter_map]

theorem C9_pointToPoint_endpoints_witness :
    3 < UINT32 ∧ 1 ≤ normalise 3 ∧ uint32Sub (normalise 3) 1 + 1 = normalise 3 ∧
      ∃ l, buildLinks 3 = Except.ok l ∧ l.p2pNodes = [2, 3] :=
  ⟨by decide, (C9_pointToPoint_endpoints 3 (by decide)).1,
    (C9_pointToPoint_endpoints 3 (by decide)).2.1,
    (C9_pointToPoint_endpoints 3 (by decide)).2.2.2⟩

/-! ## Container lookups -/

theorem get_isOk_iff {α : Type} (c : List α) (i : Nat) :
    (Container.Get c i).isOk = true ↔ i < c.length := by
  unfold Container.Get
  rw [List.get?_eq_getElem?]
  by_cases hi : i < c.length
  · simp [List.getElem?_eq_getElem hi, hi, Except.isOk, Except.toBool]
  · simp [List.getElem?_eq_none (Nat.le_of_not_lt hi), hi, Except.isOk, Except.toBool]

theorem getAddress_isOk_iff (c : List Ipv4Interface) (i : Nat) :
    (Ipv4InterfaceContainer.GetAddress c i).isOk = true ↔ i < c.length := by
  rw [← get_isOk_iff]
  unfold Ipv4InterfaceContainer.GetAddress
  cases Container.Get c i <;> simp [Except.isOk, Except.toBool]

theorem assignLoop_length (devs : List NetDevice) (h h1 : Ipv4AddressHelper)
    (ifs : List Ipv4Interface) (hok : assignLoop h devs = Except.ok (ifs, h1)) :
    ifs.length = devs.length := by
  induction devs generalizing h h1 ifs with
  | nil =>
    simp only [assignLoop, Except.ok.injEq, Prod.mk.injEq] at hok
    obtain ⟨rfl, -⟩ := hok
    rfl
  | cons d rest ih =>
    unfold assignLoop at hok
    cases hn : h.NewAddress with
    | error e => rw [hn] at hok; cases hok
    | ok p =>
      obtain ⟨a, h2⟩ := p
      rw [hn] at hok
      simp only at hok
      cases hr : assignLoop h2 rest with
      | error e => rw [hr] at hok; cases hok
      | ok q =>
        obtain ⟨ifs1, h3⟩ := q
        rw [hr] at hok
        simp only [Except.ok.injEq, Prod.mk.injEq] at hok
        rw [← hok.1, List.length_cons, List.length_cons, ih h2 h3 ifs1 hr]

theorem assignLoop_error (devs : List NetDevice) (h : Ipv4AddressHelper) (e : SetupError)
    (herr : assignLoop h devs = Except.error e) : e = SetupError.addressSpaceExhausted := by
  induction devs generalizing h e with
  | nil => cases herr
  | cons d rest ih =>
    unfold assignLoop at herr
    cases hn : h.NewAddress with
    | error e1 =>
      rw [hn] at herr
      simp only [Except.error.injEq] at herr
      unfold Ipv4AddressHelper.NewAddress at hn
      split at hn
      · cases hn
      · simp only [Except.error.injEq] at hn
        rw [← herr, ← hn]
    | ok p =>
      obtain ⟨a, h2⟩ := p
      rw [hn] at herr
      simp only at herr
      cases hr : assignLoop h2 rest with
      | error e1 =>
        rw [hr] at herr
        simp only [Except.error.injEq] at herr
        rw [← herr]
        exact ih h2 e1 hr
      | ok q => rw [hr] at herr; cases herr

theorem assign_cases (h : Ipv4AddressHelper) (w : World) (devs : List NetDevice) :
    (∃ ifs h1 w1, h.Assign w devs = Except.ok (ifs, h1, w1) ∧ ifs.length = devs.length) ∨
      h.Assign w devs = Except.error SetupError.addressSpaceExhausted := by
  unfold Ipv4AddressHelper.Assign
  cases hr : assignLoop h devs with
  | error e => right; rw [assignLoop_error devs h e hr]
  | ok q =>
    obtain ⟨ifs, h1⟩ := q
    left
    exact ⟨ifs, h1, _, rfl, assignLoop_length devs h h1 ifs hr⟩

theorem assignAddresses_cases (l : Links) :
    (∃ a, assignAddresses l = Except.ok a ∧ a.csmaNodes_1 = l.csmaNodes_1 ∧
      a.csmaNodes_2 = l.csmaNodes_2 ∧ a.csmaInterfaces_1.length = l.csmaDevices_1.length) ∨
      assignAddresses l = Except.error SetupError.addressSpaceExhausted := by
  unfold assignAddresses
  simp only [bind, Except.bind, pure, Except.pure]
  rcases assign_cases (Ipv4AddressHelper.SetBase l.world (ipv4 192 168 3 0) mask24).1
      (Ipv4AddressHelper.SetBase l.world (ipv4 192 168 3 0) mask24).2 l.p2pDevices with
    ⟨i0, g0, w0, e0, -⟩ | e0
  · rw [e0]
    simp only
    rcases assign_cases (Ipv4AddressHelper.SetBase w0 (ipv4 192 168 1 0) mask24).1
        (Ipv4AddressHelper.SetBase w0 (ipv4 192 168 1 0) mask24).2 l.csmaDevices_1 with
      ⟨i1, g1, w1, e1, len1⟩ | e1
    · rw [e1]
      simp only
      rcases assign_cases (Ipv4AddressHelper.SetBase w1 (ipv4 192 168 2 0) mask24).1
          (Ipv4AddressHelper.SetBase w1 (ipv4 192 168 2 0) mask24).2 l.csmaDevices_2 with
        ⟨i2, g2, w2, e2, -⟩ | e2
      · rw [e2]
        left
        exact ⟨_, rfl, rfl, rfl, len1⟩
      · rw [e2]; right; rfl
    · rw [e1]; right; rfl
  · rw [e0]; right; rfl

theorem installApplications_cases (a : Addressed) :
    (1 < a.csmaNodes_1.length ∧ 1 < a.csmaInterfaces_1.length ∧ 2 < a.csmaNodes_2.length ∧
      ∃ s, installApplications a = Except.ok s) ∨
    ((a.csmaNodes_1.length ≤ 1 ∨ a.csmaInterfaces_1.length ≤ 1 ∨ a.csmaNodes_2.length ≤ 2) ∧
      installApplications a = Except.error SetupError.indexOutOfRange) := by
  by_cases h1 : 1 < a.csmaNodes_1.length
  · by_cases h2 : 1 < a.csmaInterfaces_1.length
    · by_cases h3 : 2 < a.csmaNodes_2.length
      · left
        refine ⟨h1, h2, h3, _, installApplications_eq a _ _ _
          (by rw [List.get?_eq_getElem?]; exact List.getElem?_eq_getElem h1)
          (by rw [List.get?_eq_getElem?]; exact List.getElem?_eq_getElem h2)
          (by rw [List.get?_eq_getElem?]; exact List.getElem?_eq_getElem h3)⟩
      · right
        refine ⟨Or.inr (Or.inr (Nat.le_of_not_lt h3)), ?_⟩
        unfold installApplications
        simp only [Container.Get, Ipv4InterfaceContainer.GetAddress, bind, Except.bind,
          List.get?_eq_getElem?, List.getElem?_eq_getElem h1, List.getElem?_eq_getElem h2,
          List.getElem?_eq_none (Nat.le_of_not_lt h3)]
    · right
      refine ⟨Or.inr (Or.inl (Nat.le_of_not_lt h2)), ?_⟩
      unfold installApplications
      simp only [Container.Get, Ipv4InterfaceContainer.GetAddress, bind, Except.bind,
        List.get?_eq_getElem?, List.getElem?_eq_getElem h1,
        List.getElem?_eq_none (Nat.le_of_not_lt h2)]
  · right
    refine ⟨Or.inl (Nat.le_of_not_lt h1), ?_⟩
    unfold installApplications
    simp only [Container.Get, bind, Except.bind, List.get?_eq_getElem?,
      List.getElem?_eq_none (Nat.le_of_not_lt h1)]

theorem buildLinks_spec (nCsma : Nat) (h : nCsma < UINT32) :
    ∃ l, buildLinks nCsma = Except.ok l ∧
      l.csmaNodes_1 = List.range' 0 (normalise nCsma) ∧
      l.csmaNodes_2 = List.range' (normalise nCsma) (normalise nCsma) ∧
      l.p2pDevices = [⟨0, LinkKind.pointToPoint, normalise nCsma - 1, 0⟩,
                      ⟨1, LinkKind.pointToPoint, normalise nCsma, 0⟩] ∧
      l.csmaDevices_1 = (List.range (normalise nCsma)).map
        (fun i => (⟨2 + i, LinkKind.csma, 0 + i, 1⟩ : NetDevice)) ∧
      l.csmaDevices_2 = (List.range (normalise nCsma)).map
        (fun i => (⟨2 + normalise nCsma + i, LinkKind.csma, normalise nCsma + i, 2⟩ :
          NetDevice)) ∧
      l.world.nNodes = normalise nCsma + normalise nCsma ∧
      l.world.devices = l.p2pDevices ++ (l.csmaDevices_1 ++ l.csmaDevices_2) ∧
      l.world.interfaces = [] :=
  ⟨_, buildLinks_eq nCsma h, rfl, rfl, rfl, csmaDevicesFor_range' 1 _ 2 0,
    csmaDevicesFor_range' 2 _ _ _, rfl, rfl, rfl⟩

theorem assignLoop_map_fail (h : Ipv4AddressHelper) (n : Nat) (f : Nat → NetDevice)
    (hpos : 1 ≤ n) (hn : maxHost h.mask + 1 < h.address + n) :
    assignLoop h ((List.range n).map f) = Except.error SetupError.addressSpaceExhausted := by
  induction n generalizing h f with
  | zero => omega
  | succ n ih =>
    rw [List.range_succ_eq_map, List.map_cons, List.map_map, assignLoop]
    by_cases hle : h.address ≤ maxHost h.mask
    · simp only [Ipv4AddressHelper.NewAddress, hle, if_true]
      rw [ih _ _ (by omega) (by simp only; omega)]
    · simp only [Ipv4AddressHelper.NewAddress, hle, if_false]

theorem assignAddresses_fail (l : Links) (d0 d1 : NetDevice) (n : Nat) (f1 : Nat → NetDevice)
    (hp : l.p2pDevices = [d0, d1]) (h1 : l.csmaDevices_1 = (List.range n).map f1)
    (hn : 254 < n) :
    assignAddresses l = Except.error SetupError.addressSpaceExhausted := by
  unfold assignAddresses
  simp only [Ipv4AddressHelper.SetBase, Ipv4AddressHelper.Assign, hp, h1]
  rw [assignLoop_two _ d0 d1 (by simp only [maxHost_mask24]; omega),
    assignLoop_map_fail _ n f1 (by omega) (by simp only [maxHost_mask24]; omega)]
  rfl

theorem setup_cases (nCsma : Nat) (h : nCsma < UINT32) :
    (normalise nCsma < 3 ∧ setup nCsma = Except.error SetupError.indexOutOfRange) ∨
    (3 ≤ normalise nCsma ∧ normalise nCsma ≤ 254 ∧ ∃ s, setup nCsma = Except.ok s) ∨
    (254 < normalise nCsma ∧ setup nCsma = Except.error SetupError.addressSpaceExhausted) := by
  obtain ⟨l, hl, p1, p2, p3, p4, p5, -, -, -⟩ := buildLinks_spec nCsma h
  have hsetup : setup nCsma = (buildLinks nCsma >>= fun l => assignAddresses l >>= fun a =>
      installApplications a >>= fun s => pure (finishSetup s)) := rfl
  rw [hl] at hsetup
  by_cases h254 : normalise nCsma ≤ 254
  · by_cases h3 : 3 ≤ normalise nCsma
    · exact Or.inr (Or.inl ⟨h3, h254, _, setup_eq nCsma h h3 h254⟩)
    · left
      refine ⟨by omega, ?_⟩
      rw [hsetup]
      generalize normalise nCsma = n at *
      have ha := assignAddresses_eq l _ _ n _ _ p3 p4 p5 h254
      simp only [bind, Except.bind, ha]
      rcases installApplications_cases
        { toLinks := { l with world := _ }, p2pInterfaces := _, csmaInterfaces_1 := _,
          csmaInterfaces_2 := _ } with ⟨c1, c2, c3, -⟩ | ⟨-, herr⟩
      · simp only [p2, List.length_range'] at c3
        omega
      · rw [herr]
  · right; right
    refine ⟨by omega, ?_⟩
    rw [hsetup]
    simp only [bind, Except.bind, assignAddresses_fail l _ _ _ _ p3 p4 (by omega)]

/-- C8: for every 32-bit value of `nCsma`, with `n` the normalised value, each
CSMA node container and the segment-1 interface container have `n` elements;
the lookups `csmaNodes_1.Get(1)` and `csmaInterfaces_1.GetAddress(1)` are in
bounds exactly when `n ≥ 2` and `csmaNodes_2.Get(2)` exactly when `n ≥ 3`, so the
three of them are in bounds exactly when `n ≥ 3`, and the setup stops with an
out-of-range lookup exactly when `n < 3`; for `nCsma` 0, 1 and 2 the client
lookup is out of range, and for the default 3 all lookups succeed. -/
theorem C8_lookup_bounds (nCsma : Nat) (h : nCsma < UINT32) :
    (∃ l, buildLinks nCsma = Except.ok l ∧
      l.csmaNodes_1.length = normalise nCsma ∧ l.csmaNodes_2.length = normalise nCsma ∧
      ((Container.Get l.csmaNodes_1 1).isOk = true ↔ 2 ≤ normalise nCsma) ∧
      ((Container.Get l.csmaNodes_2 2).isOk = true ↔ 3 ≤ normalise nCsma) ∧
      (normalise nCsma ≤ 254 → ∃ a, assignAddresses l = Except.ok a) ∧
      (∀ a, assignAddresses l = Except.ok a →
        a.csmaNodes_1 = l.csmaNodes_1 ∧ a.csmaNodes_2 = l.csmaNodes_2 ∧
        a.csmaInterfaces_1.length = normalise nCsma ∧
        ((Ipv4InterfaceContainer.GetAddress a.csmaInterfaces_1 1).isOk = true ↔
          2 ≤ normalise nCsma) ∧
        (((Container.Get a.csmaNodes_1 1).isOk = true ∧
          (Ipv4InterfaceContainer.GetAddress a.csmaInterfaces_1 1).isOk = true ∧
          (Container.Get a.csmaNodes_2 2).isOk = true) ↔ 3 ≤ normalise nCsma) ∧
        ((∃ s, installApplications a = Except.ok s) ↔ 3 ≤ normalise nCsma) ∧
        (normalise nCsma < 3 →
          installApplications a = Except.error SetupError.indexOutOfRange))) ∧
    (setup nCsma = Except.error SetupError.indexOutOfRange ↔ normalise nCsma < 3) ∧
    (∀ k, k < 3 → ∃ l, buildLinks k = Except.ok l ∧
      Container.Get l.csmaNodes_2 2 = Except.error SetupError.indexOutOfRange) ∧
    (∃ s, setup 3 = Except.ok s) := by
  obtain ⟨l, hl, p1, p2, p3, p4, p5, -, -, -⟩ := buildLinks_spec nCsma h
  have hcases := setup_cases nCsma h
  have hn1 := normalise_pos nCsma
  generalize normalise nCsma = n at *
  have e1 : l.csmaNodes_1.length = n := by rw [p1]; simp
  have e2 : l.csmaNodes_2.length = n := by rw [p2]; simp
  have e3 : l.csmaDevices_1.length = n := by rw [p4]; simp
  have hassign : n ≤ 254 → ∃ a, assignAddresses l = Except.ok a := fun h254 =>
    ⟨_, assignAddresses_eq l _ _ n _ _ p3 p4 p5 h254⟩
  have key : ∀ a, assignAddresses l = Except.ok a →
      a.csmaNodes_1.length = n ∧ a.csmaNodes_2.length = n ∧
      a.csmaInterfaces_1.length = n ∧
      a.csmaNodes_1 = l.csmaNodes_1 ∧ a.csmaNodes_2 = l.csmaNodes_2 := by
    intro a ha
    rcases assignAddresses_cases l with ⟨a1, ha1, f1, f2, f3⟩ | herr
    · rw [ha] at ha1
      cases ha1
      exact ⟨by rw [f1, e1], by rw [f2, e2], by rw [f3, e3], f1, f2⟩
    · rw [ha] at herr
      cases herr
  refine ⟨⟨l, hl, e1, e2, ?_, ?_, hassign, ?_⟩, ?_, ?_,
    ⟨_, setup_eq 3 (by decide) (by decide) (by decide)⟩⟩
  · rw [get_isOk_iff, e1]; omega
  · rw [get_isOk_iff, e2]; omega
  · intro a ha
    obtain ⟨g1, g2, g3, f1, f2⟩ := key a ha
    refine ⟨f1, f2, g3, ?_, ?_, ?_, ?_⟩
    · rw [getAddress_isOk_iff, g3]; omega
    · rw [get_isOk_iff, get_isOk_iff, getAddress_isOk_iff, g3, g1, g2]; omega
    · rcases installApplications_cases a with ⟨c1, c2, c3, s, hs⟩ | ⟨c, herr⟩
      · exact ⟨fun _ => (by omega), fun _ => ⟨s, hs⟩⟩
      · rw [herr]
        exact ⟨fun ⟨s, hs⟩ => (by cases hs), fun _ => (by omega)⟩
    · intro hlt
      rcases installApplications_cases a with ⟨c1, c2, c3, s, hs⟩ | ⟨c, herr⟩
      · omega
      · exact herr
  · rcases hcases with ⟨c1, c2⟩ | ⟨c1, -, s, c2⟩ | ⟨c1, c2⟩
    · exact ⟨fun _ => c1, fun _ => c2⟩
    · rw [c2]
      exact ⟨fun hh => (by cases hh), fun _ => (by omega)⟩
    · rw [c2]
      exact ⟨fun hh => (by cases hh), fun _ => (by omega)⟩
  · intro k hk
    interval_cases k <;> exact ⟨_, rfl, rfl⟩

theorem C8_lookup_bounds_witness :
    2 < UINT32 ∧
      (setup 2 = Except.error SetupError.indexOutOfRange ↔ normalise 2 < 3) :=
  ⟨by decide, (C8_lookup_bounds 2 (by decide)).2.1⟩

/-! ## Address assignment -/

set_option maxRecDepth 100000 in
theorem land_mask24 : ∀ i, i < 254 →
    (ipv4 192 168 3 0 + (1 + i)) &&& mask24 = ipv4 192 168 3 0 ∧
    (ipv4 192 168 1 0 + (1 + i)) &&& mask24 = ipv4 192 168 1 0 ∧
    (ipv4 192 168 2 0 + (1 + i)) &&& mask24 = ipv4 192 168 2 0 := by
  decide

theorem addresses_nodup (n : Nat) (hn : n ≤ 254) :
    ([ipv4 192 168 3 0 + 1, ipv4 192 168 3 0 + 2] ++
      ((List.range n).map (fun i => ipv4 192 168 1 0 + (1 + i)) ++
       (List.range n).map (fun i => ipv4 192 168 2 0 + (1 + i)))).Nodup := by
  have inj : ∀ b : Nat, Function.Injective (fun i => b + (1 + i)) := by
    intro b x y hxy
    simp only at hxy
    omega
  rw [List.nodup_append]
  refine ⟨by simp, ?_, ?_⟩
  · rw [List.nodup_append]
    refine ⟨(List.nodup_range n).map (inj _), (List.nodup_range n).map (inj _), ?_⟩
    intro x hx1 hx2
    simp only [List.mem_map, List.mem_range] at hx1 hx2
    obtain ⟨i, hi, rfl⟩ := hx1
    obtain ⟨j, hj, hij⟩ := hx2
    simp only [ipv4] at hij
    omega
  · intro x hx1 hx2
    simp only [List.mem_append, List.mem_map, List.mem_range, List.mem_cons,
      List.mem_singleton, List.not_mem_nil, or_false] at hx1 hx2
    simp only [ipv4] at hx1 hx2
    rcases hx2 with ⟨j, hj, hij⟩ | ⟨j, hj, hij⟩ <;> rcases hx1 with rfl | rfl <;> omega

/-- C5: for every `nCsma` whose normalised value `n` is at most 254 the three
`Assign` calls of `main` succeed; the two point-to-point devices get
192.168.3.1 and 192.168.3.2, the device of the `i`-th node of segment 1 gets
192.168.1.(i+1) and that of segment 2 gets 192.168.2.(i+1); each address lies in
the /24 network of the preceding `SetBase`; the `2n + 2` assigned addresses are
pairwise distinct. -/
theorem C5_address_assignment (nCsma : Nat) (h254 : normalise nCsma ≤ 254) :
    ∃ l a, buildLinks nCsma = Except.ok l ∧ assignAddresses l = Except.ok a ∧
      a.p2pInterfaces.map (fun i => i.address) = [ipv4 192 168 3 1, ipv4 192 168 3 2] ∧
      a.p2pInterfaces.map (fun i => i.device) = a.p2pDevices ∧
      a.csmaInterfaces_1.length = normalise nCsma ∧
      a.csmaInterfaces_2.length = normalise nCsma ∧
      (∀ i, i < normalise nCsma → ∃ ifc, a.csmaInterfaces_1.get? i = some ifc ∧
        ifc.address = ipv4 192 168 1 (i + 1) ∧
        a.csmaDevices_1.get? i = some ifc.device ∧
        a.csmaNodes_1.get? i = some ifc.device.node) ∧
      (∀ i, i < normalise nCsma → ∃ ifc, a.csmaInterfaces_2.get? i = some ifc ∧
        ifc.address = ipv4 192 168 2 (i + 1) ∧
        a.csmaDevices_2.get? i = some ifc.device ∧
        a.csmaNodes_2.get? i = some ifc.device.node) ∧
      (∀ ifc ∈ a.p2pInterfaces,
        ifc.mask = ipv4 255 255 255 0 ∧ ifc.address &&& ifc.mask = ipv4 192 168 3 0) ∧
      (∀ ifc ∈ a.csmaInterfaces_1,
        ifc.mask = ipv4 255 255 255 0 ∧ ifc.address &&& ifc.mask = ipv4 192 168 1 0) ∧
      (∀ ifc ∈ a.csmaInterfaces_2,
        ifc.mask = ipv4 255 255 255 0 ∧ ifc.address &&& ifc.mask = ipv4 192 168 2 0) ∧
      a.world.interfaces = a.p2pInterfaces ++ a.csmaInterfaces_1 ++ a.csmaInterfaces_2 ∧
      a.world.interfaces.length = 2 * normalise nCsma + 2 ∧
      (a.world.interfaces.map (fun i => i.address)).Nodup := by
  have h : nCsma < UINT32 := by
    unfold normalise at h254
    unfold UINT32
    split at h254 <;> omega
  obtain ⟨l, hl, p1, p2, p3, p4, p5, -, -, p8⟩ := buildLinks_spec nCsma h
  have ha := assignAddresses_eq l _ _ (normalise nCsma) _ _ p3 p4 p5 h254
  generalize normalise nCsma = n at *
  refine ⟨l, _, hl, ha, ?_, ?_, ?_, ?_, ?_, ?_, ?_, ?_, ?_, ?_, ?_, ?_⟩
  · simp [ipv4]
  · simp [p3]
  · simp
  · simp
  · intro i hi
    refine ⟨_, map_range_get? _ n i hi, ?_, ?_, ?_⟩
    · simp only [ipv4]; omega
    · simp only [p4]; exact map_range_get? _ n i hi
    · simp only [p1]; exact range'_get? 0 n i hi
  · intro i hi
    refine ⟨_, map_range_get? _ n i hi, ?_, ?_, ?_⟩
    · simp only [ipv4]; omega
    · simp only [p5]; exact map_range_get? _ n i hi
    · simp only [p2]; exact range'_get? n n i hi
  · intro ifc hifc
    simp only [List.mem_cons, List.mem_singleton, List.not_mem_nil, or_false] at hifc
    rcases hifc with rfl | rfl
    · exact ⟨rfl, (land_mask24 0 (by omega)).1⟩
    · exact ⟨rfl, (land_mask24 1 (by omega)).1⟩
  · intro ifc hifc
    simp only [List.mem_map, List.mem_range] at hifc
    obtain ⟨i, hi, rfl⟩ := hifc
    exact ⟨rfl, (land_mask24 i (by omega)).2.1⟩
  · intro ifc hifc
    simp only [List.mem_map, List.mem_range] at hifc
    obtain ⟨i, hi, rfl⟩ := hifc
    exact ⟨rfl, (land_mask24 i (by omega)).2.2⟩
  · simp [p8]
  · simp [p8]; omega
  · have := addresses_nodup n h254
    simpa [p8, Function.comp_def] using this

theorem C5_address_assignment_witness :
    normalise 3 ≤ 254 ∧
      ∃ l a, buildLinks 3 = Except.ok l ∧ assignAddresses l = Except.ok a ∧
        (a.world.interfaces.map (fun i => i.address)).Nodup := by
  refine ⟨by decide, ?_⟩
  obtain ⟨l, a, hl, ha, hrest⟩ := C5_address_assignment 3 (by decide)
  exact ⟨l, a, hl, ha, hrest.2.2.2.2.2.2.2.2.2.2.2⟩

/-! ## The client's destination -/

theorem find?_of_unique {α : Type} (l : List α) (p : α → Bool) (x : α) (hx : x ∈ l)
    (hp : p x = true) (huniq : ∀ y ∈ l, p y = true → y = x) : l.find? p = some x := by
  cases hf : l.find? p with
  | none =>
    rw [List.find?_eq_none] at hf
    exact absurd hp (hf x hx)
  | some y =>
    rw [huniq y (List.mem_of_find?_eq_some hf) (List.find?_some hf)]

/-- C7: for every 32-bit value of `nCsma` the setup succeeds exactly when the
normalised `n` is between 3 and 254, and whenever it succeeds the destination
address of the client is the address of the interface at index `nEchoServer`
of segment 1, whose device is the CSMA device at that index and sits on the
node at that index, the node the server is installed on; nodes, devices and
interfaces of segment 1 are in the same index order; no other interface has
that address; the client's destination port is the server's port 21, and the
destination address is 192.168.1.2. -/
theorem C7_client_targets_server (nCsma : Nat) (h : nCsma < UINT32) :
    ((∃ s, setup nCsma = Except.ok s) ↔ 3 ≤ normalise nCsma ∧ normalise nCsma ≤ 254) ∧
    ∀ s, setup nCsma = Except.ok s → ∃ ifc,
      Container.Get s.csmaInterfaces_1 s.nEchoServer = Except.ok ifc ∧
      Ipv4InterfaceContainer.GetAddress s.csmaInterfaces_1 s.nEchoServer =
        Except.ok s.clientApps.remoteAddress ∧
      s.clientApps.remoteAddress = ifc.address ∧
      Container.Get s.csmaDevices_1 s.nEchoServer = Except.ok ifc.device ∧
      Container.Get s.csmaNodes_1 s.nEchoServer = Except.ok s.serverApps.node ∧
      ifc.device.node = s.serverApps.node ∧
      ifc.device.kind = LinkKind.csma ∧
      ifc ∈ s.world.interfaces ∧
      (∀ j ∈ s.world.interfaces, j.address = s.clientApps.remoteAddress → j = ifc) ∧
      s.world.nodeOfAddress s.clientApps.remoteAddress = some s.serverApps.node ∧
      (∀ i, i < normalise nCsma → ∃ nd dev ifc1,
        s.csmaNodes_1.get? i = some nd ∧ s.csmaDevices_1.get? i = some dev ∧
        s.csmaInterfaces_1.get? i = some ifc1 ∧ dev.node = nd ∧ ifc1.device = dev) ∧
      s.clientApps.remotePort = s.serverApps.port ∧ s.serverApps.port = 21 ∧
      s.clientApps.remoteAddress = ipv4 192 168 1 2 := by
  have hcases := setup_cases nCsma h
  refine ⟨?_, ?_⟩
  · rcases hcases with ⟨c1, c2⟩ | ⟨c1, c2, c3⟩ | ⟨c1, c2⟩
    · rw [c2]
      exact ⟨fun ⟨s, hs⟩ => (by cases hs), fun _ => (by omega)⟩
    · exact ⟨fun _ => ⟨c1, c2⟩, fun _ => c3⟩
    · rw [c2]
      exact ⟨fun ⟨s, hs⟩ => (by cases hs), fun _ => (by omega)⟩
  intro s hs
  have hb : 3 ≤ normalise nCsma ∧ normalise nCsma ≤ 254 := by
    rcases hcases with ⟨-, c2⟩ | ⟨c1, c2, -⟩ | ⟨-, c2⟩
    · rw [c2] at hs; cases hs
    · exact ⟨c1, c2⟩
    · rw [c2] at hs; cases hs
  obtain ⟨h3, h254⟩ := hb
  rw [setup_eq nCsma h h3 h254] at hs
  generalize normalise nCsma = n at *
  cases hs
  have hmem : (⟨⟨2 + 1, LinkKind.csma, 1, 1⟩, ipv4 192 168 1 0 + (1 + 1), mask24⟩ :
      Ipv4Interface) ∈ (List.range n).map (fun i =>
        (⟨⟨2 + i, LinkKind.csma, i, 1⟩, ipv4 192 168 1 0 + (1 + i), mask24⟩ :
          Ipv4Interface)) :=
    List.mem_map.mpr ⟨1, List.mem_range.mpr (by omega), rfl⟩
  have huniq : ∀ j ∈
      ([⟨⟨0, LinkKind.pointToPoint, n - 1, 0⟩, ipv4 192 168 3 0 + 1, mask24⟩,
        ⟨⟨1, LinkKind.pointToPoint, n, 0⟩, ipv4 192 168 3 0 + 2, mask24⟩] ++
        ((List.range n).map (fun i =>
          (⟨⟨2 + i, LinkKind.csma, i, 1⟩, ipv4 192 168 1 0 + (1 + i), mask24⟩ :
            Ipv4Interface)) ++
         (List.range n).map (fun i =>
          (⟨⟨2 + n + i, LinkKind.csma, n + i, 2⟩, ipv4 192 168 2 0 + (1 + i), mask24⟩ :
            Ipv4Interface))) : List Ipv4Interface),
      j.address = ipv4 192 168 1 0 + 2 →
        j = ⟨⟨2 + 1, LinkKind.csma, 1, 1⟩, ipv4 192 168 1 0 + (1 + 1), mask24⟩ := by
    intro j hj hadr
    have hnd := addresses_nodup n h254
    refine List.inj_on_of_nodup_map (f := fun i : Ipv4Interface => i.address) ?_ hj
      (List.mem_append_right _ (List.mem_append_left _ hmem)) hadr
    simpa [Function.comp_def] using hnd
  refine ⟨⟨⟨2 + 1, LinkKind.csma, 1, 1⟩, ipv4 192 168 1 0 + (1 + 1), mask24⟩,
    ?_, ?_, rfl, ?_, ?_, rfl, rfl, ?_, huniq, ?_, ?_, rfl, rfl, ?_⟩
  · simp only [Container.Get, map_range_get? _ n 1 (by omega)]
  · simp only [Ipv4InterfaceContainer.GetAddress, Container.Get,
      map_range_get? _ n 1 (by omega)]
  · simp only [Container.Get, map_range_get? _ n 1 (by omega)]
  · simp only [Container.Get, range'_get? 0 n 1 (by omega)]
  · exact List.mem_append_right _ (List.mem_append_left _ hmem)
  · simp only [World.nodeOfAddress]
    rw [find?_of_unique _ _ _ (List.mem_append_right _ (List.mem_append_left _ hmem))
      (by simp) (fun y hy hp => huniq y hy (by simpa using hp))]
    rfl
  · intro i hi
    exact ⟨_, _, _, range'_get? 0 n i hi, map_range_get? _ n i hi, map_range_get? _ n i hi,
      by simp, rfl⟩
  · simp [ipv4]

theorem C7_client_targets_server_witness :
    3 < UINT32 ∧
      ∃ s, setup 3 = Except.ok s ∧ s.clientApps.remoteAddress = ipv4 192 168 1 2 ∧
        s.world.nodeOfAddress s.clientApps.remoteAddress = some s.serverApps.node := by
  refine ⟨by decide, ?_⟩
  obtain ⟨hiff, hall⟩ := C7_client_targets_server 3 (by decide)
  obtain ⟨s, hs⟩ := hiff.mpr ⟨by decide, by decide⟩
  obtain ⟨ifc, hrest⟩ := hall s hs
  exact ⟨s, hs, hrest.2.2.2.2.2.2.2.2.2.2.2.2.2, hrest.2.2.2.2.2.2.2.2.2.1⟩

/-! ## Order of the setup steps -/

theorem main_eq (nCsma : Nat) (s : Script) (hs : setup nCsma = Except.ok s) :
    main nCsma = Except.ok
      ({ s with world := { s.world with trace := s.world.trace ++ [Step.run] ++ [Step.destroy] } },
        Simulator.Run s) := by
  unfold main
  rw [hs]
  rfl

theorem main_error (nCsma : Nat) (e : SetupError) (hs : setup nCsma = Except.error e) :
    main nCsma = Except.error e := by
  unfold main
  rw [hs]
  rfl

/-- C6: for every 32-bit value of `nCsma`, `main` runs to its end exactly when
the normalised `n` is between 3 and 254, and whenever it does its setup steps
are, in order: the node creations, the three device installations, the stack
installations, the three address assignments, the two application
installations, `PopulateRoutingTables`, the two pcap selections,
`Simulator::Run`, `Simulator::Destroy`.  `PopulateRoutingTables` occurs exactly
once, after every device installation and every address assignment and before
`Run`; nothing between it and `Run` adds a node, a device or an address;
`Destroy` comes after `Run`. -/
theorem C6_setup_order (nCsma : Nat) (h : nCsma < UINT32) :
    ((∃ x, main nCsma = Except.ok x) ↔ 3 ≤ normalise nCsma ∧ normalise nCsma ≤ 254) ∧
    ∀ s r, main nCsma = Except.ok (s, r) → ∃ pre mid,
      s.world.trace = pre ++ [Step.populateRoutingTables] ++ mid ++ [Step.run, Step.destroy] ∧
      pre = [Step.createNodes (normalise nCsma), Step.createNodes (normalise nCsma),
        Step.installPointToPoint, Step.installCsma, Step.installCsma,
        Step.installStack, Step.installStack,
        Step.setBase (ipv4 192 168 3 0) (ipv4 255 255 255 0), Step.assign,
        Step.setBase (ipv4 192 168 1 0) (ipv4 255 255 255 0), Step.assign,
        Step.setBase (ipv4 192 168 2 0) (ipv4 255 255 255 0), Step.assign,
        Step.installServer, Step.installClient] ∧
      mid = [Step.enablePcap 2 1, Step.enablePcap 4 0] ∧
      s.world.trace.count Step.populateRoutingTables = 1 ∧
      s.world.trace.count Step.run = 1 ∧
      s.world.trace.count Step.destroy = 1 ∧
      pre.count Step.installPointToPoint + pre.count Step.installCsma = 3 ∧
      pre.count Step.assign = 3 ∧
      (∀ st ∈ s.world.trace, st.changesTopology = true → st ∈ pre) ∧
      (∀ st ∈ mid ++ [Step.run, Step.destroy], st.changesTopology = false) := by
  have hcases := setup_cases nCsma h
  refine ⟨?_, ?_⟩
  · rcases hcases with ⟨c1, c2⟩ | ⟨c1, c2, s, c3⟩ | ⟨c1, c2⟩
    · rw [main_error nCsma _ c2]
      exact ⟨fun ⟨x, hx⟩ => (by cases hx), fun _ => (by omega)⟩
    · exact ⟨fun _ => ⟨c1, c2⟩, fun _ => ⟨_, main_eq nCsma s c3⟩⟩
    · rw [main_error nCsma _ c2]
      exact ⟨fun ⟨x, hx⟩ => (by cases hx), fun _ => (by omega)⟩
  intro s r hm
  have hb : 3 ≤ normalise nCsma ∧ normalise nCsma ≤ 254 := by
    rcases hcases with ⟨-, c2⟩ | ⟨c1, c2, -⟩ | ⟨-, c2⟩
    · rw [main_error nCsma _ c2] at hm; cases hm
    · exact ⟨c1, c2⟩
    · rw [main_error nCsma _ c2] at hm; cases hm
  obtain ⟨h3, h254⟩ := hb
  rw [main_eq nCsma _ (setup_eq nCsma h h3 h254)] at hm
  generalize normalise nCsma = n at *
  cases hm
  refine ⟨_, _, ?_, rfl, rfl, ?_, ?_, ?_, ?_, ?_, ?_, ?_⟩
  · simp [mask24]
  · simp [List.count_cons]
  · simp [List.count_cons]
  · simp [List.count_cons]
  · simp [List.count_cons]
  · simp [List.count_cons]
  · simp [Step.changesTopology]
  · simp [Step.changesTopology]

theorem C6_setup_order_witness :
    3 < UINT32 ∧
      ∃ s r, main 3 = Except.ok (s, r) ∧
        s.world.trace.count Step.populateRoutingTables = 1 := by
  refine ⟨by decide, ?_⟩
  obtain ⟨hiff, hall⟩ := C6_setup_order 3 (by decide)
  obtain ⟨⟨s, r⟩, hm⟩ := hiff.mpr ⟨by decide, by decide⟩
  obtain ⟨pre, mid, -, -, -, hc, -⟩ := hall s r hm
  exact ⟨s, r, hm, hc⟩

/-! ## The echo client's sends -/

theorem sendSlots_spec (start stop interval : Nat) (hI : 0 < interval) (k : Nat) :
    start + k * interval < stop ↔ k < sendSlots start stop interval := by
  unfold sendSlots
  rw [Nat.lt_iff_add_one_le (m := k), Nat.le_div_iff_mul_le hI, Nat.add_mul, Nat.one_mul]
  omega

theorem clientRun_nil (c : UdpEchoClient) (fuel : Nat) (s : ClientState) (hq : s.queue = []) :
    clientRun c fuel s = s := by
  cases fuel with
  | zero => rfl
  | succ f => simp only [clientRun, hq]

theorem schedule_send_stop (t stop : Nat) :
    EventQueue.schedule ⟨t, ClientEvent.send⟩ [⟨stop, ClientEvent.stop⟩] =
      if t < stop then [⟨t, ClientEvent.send⟩, ⟨stop, ClientEvent.stop⟩]
      else [⟨stop, ClientEvent.stop⟩, ⟨t, ClientEvent.send⟩] := by
  simp only [EventQueue.schedule]

theorem clientRun_running (c : UdpEchoClient) (hI : 0 < c.interval) (d : Nat) :
    ∀ j fuel, 1 ≤ j →
      j + d = min c.maxPackets (sendSlots c.startTime c.stopTime c.interval) →
      d + 1 ≤ fuel →
      clientRun c fuel
        { state := AppState.running, sent := j,
          log := (List.range j).map (fun k => c.startTime + k * c.interval),
          queue :=
            if j < c.maxPackets then
              EventQueue.schedule ⟨c.startTime + j * c.interval, ClientEvent.send⟩
                [⟨c.stopTime, ClientEvent.stop⟩]
            else [⟨c.stopTime, ClientEvent.stop⟩] } =
        { state := AppState.stopped, sent := j + d,
          log := (List.range (j + d)).map (fun k => c.startTime + k * c.interval),
          queue := [] } := by
  induction d with
  | zero =>
    intro j fuel hj hK hfuel
    obtain ⟨f, rfl⟩ : ∃ f, fuel = f + 1 := ⟨fuel - 1, by omega⟩
    by_cases hjm : j < c.maxPackets
    · have hS : ¬ c.startTime + j * c.interval < c.stopTime := by
        rw [sendSlots_spec _ _ _ hI]
        omega
      simp only [hjm, if_true, schedule_send_stop, hS, if_false, clientRun, clientHandle,
        EventQueue.cancelSend, Nat.add_zero]
      rw [clientRun_nil]
      · simp
      · simp
    · simp only [hjm, if_false, clientRun, clientHandle, EventQueue.cancelSend, Nat.add_zero]
      rw [clientRun_nil]
      · simp
      · simp
  | succ d ih =>
    intro j fuel hj hK hfuel
    obtain ⟨f, rfl⟩ : ∃ f, fuel = f + 1 := ⟨fuel - 1, by omega⟩
    have hjm : j < c.maxPackets := by omega
    have hS : c.startTime + j * c.interval < c.stopTime := by
      rw [sendSlots_spec _ _ _ hI]
      omega
    have hnext := ih (j + 1) f (by omega) (by omega) (by omega)
    simp only [hjm, if_true, schedule_send_stop, hS, clientRun, clientHandle, clientSend]
    rw [show j + (d + 1) = j + 1 + d by omega, ← hnext]
    congr 2
    · rw [List.range_succ, List.map_append, List.map_singleton]
    · rw [Nat.add_mul, Nat.one_mul, Nat.add_assoc, schedule_send_stop]

theorem clientFinal_step (c : UdpEchoClient) (hst : c.startTime < c.stopTime) :
    clientFinal c = clientRun c (c.maxPackets + 1)
      { state := AppState.running, sent := 1, log := [c.startTime],
        queue :=
          if 1 < c.maxPackets then
            EventQueue.schedule ⟨c.startTime + c.interval, ClientEvent.send⟩
              [⟨c.stopTime, ClientEvent.stop⟩]
          else [⟨c.stopTime, ClientEvent.stop⟩] } := by
  have hns : ¬ c.stopTime < c.startTime := Nat.not_lt.mpr (Nat.le_of_lt hst)
  unfold clientFinal clientInit
  simp only [EventQueue.schedule, hns, if_false]
  rfl

theorem clientFinal_eq (c : UdpEchoClient) (hI : 0 < c.interval) (hm : 1 ≤ c.maxPackets)
    (hst : c.startTime < c.stopTime) :
    clientFinal c =
      { state := AppState.stopped,
        sent := min c.maxPackets (sendSlots c.startTime c.stopTime c.interval),
        log := (List.range (min c.maxPackets (sendSlots c.startTime c.stopTime c.interval))).map
          (fun k => c.startTime + k * c.interval),
        queue := [] } := by
  have hS : 0 < sendSlots c.startTime c.stopTime c.interval := by
    rw [← sendSlots_spec _ _ _ hI]
    simpa using hst
  have hK1 : 1 ≤ min c.maxPackets (sendSlots c.startTime c.stopTime c.interval) :=
    Nat.le_min.mpr ⟨hm, hS⟩
  have hK2 : min c.maxPackets (sendSlots c.startTime c.stopTime c.interval) ≤ c.maxPackets :=
    Nat.min_le_left _ _
  have hrun := clientRun_running c hI
    (min c.maxPackets (sendSlots c.startTime c.stopTime c.interval) - 1) 1 (c.maxPackets + 1)
    (Nat.le_refl 1) (Nat.add_sub_cancel' hK1)
    (by rw [Nat.sub_add_cancel hK1]; exact Nat.le_succ_of_le hK2)
  rw [Nat.add_sub_cancel' hK1] at hrun
  simp only [show List.range 1 = [0] from rfl, List.map_cons, List.map_nil, Nat.zero_mul,
    Nat.add_zero, Nat.one_mul] at hrun
  rw [clientFinal_step c hst, hrun]

/-- C2, as stated, fails: with `MaxPackets = 0` (start 4 s, stop 10 s, interval
3 s) the client still sends its first datagram at the start time, although the
minimum of `MaxPackets` and the number of send slots before the stop time is 0;
with the start time equal to the stop time (both 10 s, `MaxPackets = 2`) the
start event precedes the stop event and one datagram is sent, although no send
slot lies before the stop time.  So the general rule does not hold for every
start, stop, positive interval and `MaxPackets`. -/
theorem C2_counterexample :
    (clientSendTimes ⟨5, ipv4 192 168 1 2, 21, 0, Seconds 3, 1024, Seconds 4, Seconds 10⟩ =
        [Seconds 4] ∧
      min 0 (sendSlots (Seconds 4) (Seconds 10) (Seconds 3)) = 0) ∧
    (clientSendTimes ⟨5, ipv4 192 168 1 2, 21, 2, Seconds 3, 1024, Seconds 10, Seconds 10⟩ =
        [Seconds 10] ∧
      min 2 (sendSlots (Seconds 10) (Seconds 10) (Seconds 3)) = 0) ∧
    ¬ (∀ c : UdpEchoClient, 0 < c.interval →
        (clientSendTimes c).length =
          min c.maxPackets (sendSlots c.startTime c.stopTime c.interval)) := by
  refine ⟨by decide, by decide, fun hall => ?_⟩
  have h0 := hall ⟨5, ipv4 192 168 1 2, 21, 0, Seconds 3, 1024, Seconds 4, Seconds 10⟩
    (by decide)
  revert h0
  decide

/-- C2 (amended): for every start time before the stop time, every positive
interval and every `MaxPackets` of at least 1, the client's run ends with an
empty queue in state `Stopped`; its `k`-th send (0-based) happens at
`start + k * interval`, and the number of sends is the minimum of `MaxPackets`
and the number of `k` with `start + k * interval` before the stop time.  With
the parameters the script sets (start 4 s, interval 3 s, `MaxPackets` 2, stop
10 s) the client sends exactly 2 datagrams, at 4 s and 7 s, and none at 10 s. -/
theorem C2_client_sends (c : UdpEchoClient) (hI : 0 < c.interval) (hm : 1 ≤ c.maxPackets)
    (hst : c.startTime < c.stopTime) :
    (clientFinal c).queue = [] ∧ (clientFinal c).state = AppState.stopped ∧
    (∀ k, c.startTime + k * c.interval < c.stopTime ↔
      k < sendSlots c.startTime c.stopTime c.interval) ∧
    clientSendTimes c =
      (List.range (min c.maxPackets (sendSlots c.startTime c.stopTime c.interval))).map
        (fun k => c.startTime + k * c.interval) ∧
    (clientSendTimes c).length =
      min c.maxPackets (sendSlots c.startTime c.stopTime c.interval) ∧
    (∀ k, k < (clientSendTimes c).length →
      (clientSendTimes c).get? k = some (c.startTime + k * c.interval)) ∧
    (∃ s r, main 3 = Except.ok (s, r) ∧
      s.clientApps.startTime = Seconds 4 ∧ s.clientApps.interval = Seconds 3 ∧
      s.clientApps.maxPackets = 2 ∧ s.clientApps.stopTime = Seconds 10 ∧
      r.sent = clientSendTimes s.clientApps ∧
      r.sent = [Seconds 4, Seconds 7] ∧ Seconds 10 ∉ r.sent) := by
  have hfin := clientFinal_eq c hI hm hst
  have hlog : clientSendTimes c =
      (List.range (min c.maxPackets (sendSlots c.startTime c.stopTime c.interval))).map
        (fun k => c.startTime + k * c.interval) := by
    unfold clientSendTimes
    rw [hfin]
  refine ⟨by rw [hfin], by rw [hfin], sendSlots_spec _ _ _ hI, hlog, by rw [hlog]; simp, ?_,
    ⟨_, _, rfl, by decide⟩⟩
  intro k hk
  rw [hlog] at hk ⊢
  simp only [List.length_map, List.length_range] at hk
  exact map_range_get? _ _ k hk

theorem C2_client_sends_witness :
    (0 < Seconds 3 ∧ 1 ≤ 2 ∧ Seconds 4 < Seconds 10) ∧
      clientSendTimes ⟨5, ipv4 192 168 1 2, 21, 2, Seconds 3, 1024, Seconds 4, Seconds 10⟩ =
        (List.range (min 2 (sendSlots (Seconds 4) (Seconds 10) (Seconds 3)))).map
          (fun k => Seconds 4 + k * Seconds 3) :=
  ⟨by decide,
    (C2_client_sends ⟨5, ipv4 192 168 1 2, 21, 2, Seconds 3, 1024, Seconds 4, Seconds 10⟩
      (by decide) (by decide) (by decide)).2.2.2.1⟩

/-! ## Paths and breadth-first search -/

theorem mem_neighbours (devs : List NetDevice) (u : Nat) (h : Hop) :
    h ∈ neighbours devs u ↔
      ∃ d ∈ devs, d.node = u ∧ ∃ e ∈ devs, e.channel = d.channel ∧ e.node ≠ u ∧
        h = ⟨d.channel, e.node⟩ := by
  unfold neighbours
  simp only [List.mem_flatMap, List.mem_filter, List.mem_map, beq_iff_eq, Bool.and_eq_true,
    bne_iff_ne, ne_eq]
  constructor
  · rintro ⟨d, ⟨hd, hdu⟩, e, ⟨he, hec, hen⟩, rfl⟩
    exact ⟨d, hd, hdu, e, he, hec, hen, rfl⟩
  · rintro ⟨d, hd, hdu, e, he, hec, hen, rfl⟩
    exact ⟨d, ⟨hd, hdu⟩, e, ⟨he, hec, hen⟩, rfl⟩

theorem validPath_nil (devs : List NetDevice) (u v : Nat) :
    validPath devs u [] v = true ↔ u = v := by
  simp [validPath]

theorem validPath_cons (devs : List NetDevice) (u v : Nat) (h : Hop) (rest : List Hop) :
    validPath devs u (h :: rest) v = true ↔
      h ∈ neighbours devs u ∧ validPath devs h.node rest v = true := by
  simp [validPath]

theorem validPath_concat (devs : List NetDevice) (p : List Hop) (u x : Nat) (h : Hop)
    (hp : validPath devs u p x = true) (hh : h ∈ neighbours devs x) :
    validPath devs u (p ++ [h]) h.node = true := by
  induction p generalizing u with
  | nil =>
    rw [validPath_nil] at hp
    subst hp
    simp [validPath, hh]
  | cons g rest ih =>
    rw [validPath_cons] at hp
    rw [List.cons_append, validPath_cons]
    exact ⟨hp.1, ih g.node hp.2⟩

theorem validPath_concat_inv (devs : List NetDevice) (q : List Hop) (u v : Nat) (h : Hop)
    (hp : validPath devs u (q ++ [h]) v = true) :
    ∃ x, validPath devs u q x = true ∧ h ∈ neighbours devs x ∧ h.node = v := by
  induction q generalizing u with
  | nil =>
    rw [List.nil_append, validPath_cons, validPath_nil] at hp
    exact ⟨u, (validPath_nil devs u u).mpr rfl, hp.1, hp.2⟩
  | cons g rest ih =>
    rw [List.cons_append, validPath_cons] at hp
    obtain ⟨x, hx, hh, hv⟩ := ih g.node hp.2
    exact ⟨x, (validPath_cons devs u x g rest).mpr ⟨hp.1, hx⟩, hh, hv⟩

theorem foldl_invariant {α β : Type} (f : β → α → β) (P : β → Prop) (l : List α) (b : β)
    (hb : P b) (hstep : ∀ acc x, x ∈ l → P acc → P (f acc x)) : P (l.foldl f b) := by
  induction l generalizing b with
  | nil => exact hb
  | cons y rest ih =>
    rw [List.foldl_cons]
    exact ih (f b y) (hstep b y (List.mem_cons_self y rest) hb)
      (fun acc x hx hacc => hstep acc x (List.mem_cons_of_mem y hx) hacc)

theorem foldl_establish {α β : Type} (f : β → α → β) (Q : β → Prop) (l : List α) (x : α)
    (hx : x ∈ l) (hest : ∀ acc, Q (f acc x)) (hpres : ∀ acc y, Q acc → Q (f acc y)) (b : β) :
    Q (l.foldl f b) := by
  induction l generalizing b with
  | nil => cases hx
  | cons y rest ih =>
    rw [List.foldl_cons]
    rcases List.mem_cons.mp hx with rfl | hx1
    · exact foldl_invariant f Q rest (f b x) (hest b) (fun acc z _ hacc => hpres acc z hacc)
    · exact ih hx1 (f b y)

theorem bfsOffer_any (visited : List (Nat × List Hop)) (x : Nat) :
    visited.any (fun v => v.1 == x) = true ↔ ∃ e ∈ visited, e.1 = x := by
  simp [List.any_eq_true]

theorem bfsOffer_mono (visited : List (Nat × List Hop)) (path : List Hop) (h : Hop)
    (e : Nat × List Hop) (he : e ∈ visited) : e ∈ bfsOffer visited path h := by
  unfold bfsOffer
  split
  · exact he
  · exact List.mem_append_left _ he

theorem bfsOffer_key (visited : List (Nat × List Hop)) (path : List Hop) (h : Hop) :
    ∃ e ∈ bfsOffer visited path h, e.1 = h.node := by
  unfold bfsOffer
  split
  · rename_i hany
    exact (bfsOffer_any visited h.node).mp hany
  · exact ⟨(h.node, path ++ [h]), List.mem_append_right _ (List.mem_singleton.mpr rfl), rfl⟩

theorem bfsOffer_new (visited : List (Nat × List Hop)) (path : List Hop) (h : Hop)
    (e : Nat × List Hop) (he : e ∈ bfsOffer visited path h) :
    e ∈ visited ∨ ((∀ g ∈ visited, g.1 ≠ h.node) ∧ e = (h.node, path ++ [h])) := by
  unfold bfsOffer at he
  split at he
  · exact Or.inl he
  · rename_i hany
    rcases List.mem_append.mp he with h1 | h1
    · exact Or.inl h1
    · right
      refine ⟨fun g hg hgx => hany ((bfsOffer_any visited h.node).mpr ⟨g, hg, hgx⟩), ?_⟩
      exact List.mem_singleton.mp h1

theorem bfsRound_mono (devs : List NetDevice) (visited : List (Nat × List Hop))
    (e : Nat × List Hop) (he : e ∈ visited) : e ∈ bfsRound devs visited := by
  unfold bfsRound
  refine foldl_invariant _ (fun acc => e ∈ acc) visited visited he ?_
  intro acc v _ hacc
  exact foldl_invariant _ (fun acc => e ∈ acc) _ acc hacc
    (fun acc1 h _ h1 => bfsOffer_mono acc1 v.2 h e h1)

theorem bfsRound_cover (devs : List NetDevice) (visited : List (Nat × List Hop))
    (v : Nat × List Hop) (hv : v ∈ visited) (h : Hop) (hh : h ∈ neighbours devs v.1) :
    ∃ e ∈ bfsRound devs visited, e.1 = h.node := by
  unfold bfsRound
  have hpres : ∀ (acc : List (Nat × List Hop)) (path : List Hop) (g : Hop),
      (∃ e ∈ acc, e.1 = h.node) → ∃ e ∈ bfsOffer acc path g, e.1 = h.node := by
    rintro acc path g ⟨e, he, hx⟩
    exact ⟨e, bfsOffer_mono acc path g e he, hx⟩
  refine foldl_establish _ (fun acc => ∃ e ∈ acc, e.1 = h.node) visited v hv ?_ ?_ visited
  · intro acc
    exact foldl_establish _ (fun acc => ∃ e ∈ acc, e.1 = h.node) _ h hh
      (fun acc1 => bfsOffer_key acc1 v.2 h) (fun acc1 g h1 => hpres acc1 v.2 g h1) acc
  · intro acc w hacc
    exact foldl_invariant _ (fun acc => ∃ e ∈ acc, e.1 = h.node) _ acc hacc
      (fun acc1 g _ h1 => hpres acc1 w.2 g h1)

theorem bfsRound_new (devs : List NetDevice) (visited : List (Nat × List Hop))
    (e : Nat × List Hop) (he : e ∈ bfsRound devs visited) :
    e ∈ visited ∨ ((∀ g ∈ visited, g.1 ≠ e.1) ∧
      ∃ v ∈ visited, ∃ h ∈ neighbours devs v.1, e = (h.node, v.2 ++ [h])) := by
  have hinv : (∀ g ∈ visited, g ∈ bfsRound devs visited) ∧
      ∀ e ∈ bfsRound devs visited, e ∈ visited ∨ ((∀ g ∈ visited, g.1 ≠ e.1) ∧
        ∃ v ∈ visited, ∃ h ∈ neighbours devs v.1, e = (h.node, v.2 ++ [h])) := by
    unfold bfsRound
    refine foldl_invariant _
      (fun acc => (∀ g ∈ visited, g ∈ acc) ∧
        ∀ e ∈ acc, e ∈ visited ∨ ((∀ g ∈ visited, g.1 ≠ e.1) ∧
          ∃ v ∈ visited, ∃ h ∈ neighbours devs v.1, e = (h.node, v.2 ++ [h])))
      visited visited ⟨fun g hg => hg, fun e he => Or.inl he⟩ ?_
    intro acc v hv hacc
    refine foldl_invariant _
      (fun acc => (∀ g ∈ visited, g ∈ acc) ∧
        ∀ e ∈ acc, e ∈ visited ∨ ((∀ g ∈ visited, g.1 ≠ e.1) ∧
          ∃ v ∈ visited, ∃ h ∈ neighbours devs v.1, e = (h.node, v.2 ++ [h])))
      (neighbours devs v.1) acc hacc ?_
    intro acc1 h hh ⟨hsub, hgood⟩
    refine ⟨fun g hg => bfsOffer_mono acc1 v.2 h g (hsub g hg), fun e1 he1 => ?_⟩
    rcases bfsOffer_new acc1 v.2 h e1 he1 with hin | ⟨hfresh, rfl⟩
    · exact hgood e1 hin
    · exact Or.inr ⟨fun g hg => hfresh g (hsub g hg), v, hv, h, hh, rfl⟩
  exact hinv.2 e he

theorem bfs_sound (devs : List NetDevice) (src : Nat) (k : Nat) :
    ∀ e ∈ bfs devs src k, validPath devs src e.2 e.1 = true ∧ e.2.length ≤ k := by
  induction k with
  | zero =>
    intro e he
    simp only [bfs, List.mem_singleton] at he
    subst he
    exact ⟨(validPath_nil devs src src).mpr rfl, Nat.le_refl 0⟩
  | succ k ih =>
    intro e he
    rcases bfsRound_new devs (bfs devs src k) e he with hin | ⟨-, v, hv, h, hh, rfl⟩
    · exact ⟨(ih e hin).1, Nat.le_succ_of_le (ih e hin).2⟩
    · refine ⟨validPath_concat devs v.2 src v.1 h (ih v hv).1 hh, ?_⟩
      simp only [List.length_append, List.length_singleton]
      exact Nat.succ_le_succ (ih v hv).2

theorem bfs_complete (devs : List NetDevice) (src : Nat) (k : Nat) :
    ∀ (p : List Hop) (v : Nat), validPath devs src p v = true → p.length ≤ k →
      ∃ e ∈ bfs devs src k, e.1 = v := by
  induction k with
  | zero =>
    intro p v hp hlen
    have hnil : p = [] := List.length_eq_zero.mp (Nat.le_zero.mp hlen)
    subst hnil
    rw [validPath_nil] at hp
    exact ⟨(src, []), List.mem_singleton.mpr rfl, hp⟩
  | succ k ih =>
    intro p v hp hlen
    rcases List.eq_nil_or_concat p with hnil | ⟨q, h, hq⟩
    · subst hnil
      obtain ⟨e, he, hv⟩ := ih [] v hp (Nat.zero_le k)
      exact ⟨e, bfsRound_mono devs _ e he, hv⟩
    · subst hq
      rw [List.concat_eq_append] at hp hlen
      obtain ⟨x, hx, hh, hnode⟩ := validPath_concat_inv devs q src v h hp
      simp only [List.length_append, List.length_singleton] at hlen
      obtain ⟨e, he, hex⟩ := ih q x hx (by omega)
      rw [← hex] at hh
      obtain ⟨e1, he1, hkey⟩ := bfsRound_cover devs (bfs devs src k) e he h hh
      exact ⟨e1, he1, hkey.trans hnode⟩

theorem bfs_shortest (devs : List NetDevice) (src : Nat) (k : Nat) :
    ∀ e ∈ bfs devs src k, ∀ p, validPath devs src p e.1 = true → e.2.length ≤ p.length := by
  induction k with
  | zero =>
    intro e he p _
    simp only [bfs, List.mem_singleton] at he
    subst he
    exact Nat.zero_le _
  | succ k ih =>
    intro e he p hp
    rcases bfsRound_new devs (bfs devs src k) e he with hin | ⟨hfresh, -⟩
    · exact ih e hin p hp
    · by_cases hlen : p.length ≤ k
      · obtain ⟨g, hg, hkey⟩ := bfs_complete devs src k p e.1 hp hlen
        exact absurd hkey (hfresh g hg)
      · have := (bfs_sound devs src (k + 1) e he).2
        omega

theorem shortestRoute_spec (devs : List NetDevice) (rounds src dst : Nat) (p : List Hop)
    (hp : validPath devs src p dst = true) (hlen : p.length ≤ rounds) :
    ∃ q, shortestRoute devs rounds src dst = some q ∧ validPath devs src q dst = true ∧
      ∀ p1, validPath devs src p1 dst = true → q.length ≤ p1.length := by
  unfold shortestRoute
  cases hf : (bfs devs src rounds).find? (fun v => v.1 == dst) with
  | none =>
    obtain ⟨e, he, hkey⟩ := bfs_complete devs src rounds p dst hp hlen
    rw [List.find?_eq_none] at hf
    exact absurd (by simpa using hkey) (hf e he)
  | some e =>
    have hmem := List.mem_of_find?_eq_some hf
    have hkey : e.1 = dst := by simpa using List.find?_some hf
    refine ⟨e.2, rfl, ?_, ?_⟩
    · rw [← hkey]; exact (bfs_sound devs src rounds e hmem).1
    · intro p1 hp1
      rw [← hkey] at hp1
      exact bfs_shortest devs src rounds e hmem p1 hp1

/-! ## The topology graph of the script -/

theorem mem_neighbours_attached (devs : List NetDevice) (u : Nat) (h : Hop) :
    h ∈ neighbours devs u ↔
      attached devs u h.channel ∧ attached devs h.node h.channel ∧ h.node ≠ u := by
  rw [mem_neighbours]
  unfold attached
  constructor
  · rintro ⟨d, hd, hdu, e, he, hec, hen, rfl⟩
    exact ⟨⟨d, hd, hdu, rfl⟩, ⟨e, he, rfl, hec⟩, hen⟩
  · rintro ⟨⟨d, hd, hdu, hdc⟩, ⟨e, he, hen, hec⟩, hne⟩
    refine ⟨d, hd, hdu, e, he, hec.trans hdc.symm, by rw [hen]; exact hne, ?_⟩
    cases h
    simp only [Hop.mk.injEq]
    exact ⟨hdc.symm, hen.symm⟩

theorem buildLinks_attached (nCsma : Nat) (h : nCsma < UINT32) :
    ∃ l, buildLinks nCsma = Except.ok l ∧ l.world.nNodes = 2 * normalise nCsma ∧
      ∀ u c, attached l.world.devices u c ↔
        (c = 0 ∧ (u = normalise nCsma - 1 ∨ u = normalise nCsma)) ∨
        (c = 1 ∧ u < normalise nCsma) ∨
        (c = 2 ∧ normalise nCsma ≤ u ∧ u < 2 * normalise nCsma) := by
  obtain ⟨l, hl, -, -, p3, p4, p5, p6, p7, -⟩ := buildLinks_spec nCsma h
  refine ⟨l, hl, by rw [p6]; omega, ?_⟩
  intro u c
  unfold attached
  rw [p7, p3, p4, p5]
  generalize normalise nCsma = n
  simp only [List.mem_append, List.mem_cons, List.mem_singleton, List.not_mem_nil, or_false,
    List.mem_map, List.mem_range]
  constructor
  · rintro ⟨d, (rfl | rfl) | ⟨i, hi, rfl⟩ | ⟨i, hi, rfl⟩, hu, hc⟩ <;> simp only at hu hc <;> omega
  · rintro (⟨rfl, rfl | rfl⟩ | ⟨rfl, hu⟩ | ⟨rfl, hu1, hu2⟩)
    · exact ⟨_, Or.inl (Or.inl rfl), rfl, rfl⟩
    · exact ⟨_, Or.inl (Or.inr rfl), rfl, rfl⟩
    · exact ⟨_, Or.inr (Or.inl ⟨u, hu, rfl⟩), by simp, rfl⟩
    · exact ⟨_, Or.inr (Or.inr ⟨u - n, by omega, rfl⟩), by simp; omega, rfl⟩

theorem crossing_forward (devs : List NetDevice) (n : Nat) (hn : 1 ≤ n)
    (hat : ∀ u c, attached devs u c ↔
      (c = 0 ∧ (u = n - 1 ∨ u = n)) ∨ (c = 1 ∧ u < n) ∨ (c = 2 ∧ n ≤ u ∧ u < 2 * n))
    (p : List Hop) : ∀ u v, u < n → n ≤ v → validPath devs u p v = true →
      (⟨0, n⟩ : Hop) ∈ p := by
  induction p with
  | nil =>
    intro u v hu hv hp
    rw [validPath_nil] at hp
    omega
  | cons g rest ih =>
    intro u v hu hv hp
    rw [validPath_cons, mem_neighbours_attached, hat, hat] at hp
    obtain ⟨⟨hsrc, hdst, hne⟩, hrest⟩ := hp
    by_cases hg : g.node < n
    · exact List.mem_cons_of_mem g (ih g.node v hg hv hrest)
    · have hc : g.channel = 0 ∧ g.node = n := by omega
      have : g = ⟨0, n⟩ := by
        cases g
        simp only [Hop.mk.injEq]
        exact hc
      rw [this]
      exact List.mem_cons_self _ _

theorem crossing_backward (devs : List NetDevice) (n : Nat) (hn : 1 ≤ n)
    (hat : ∀ u c, attached devs u c ↔
      (c = 0 ∧ (u = n - 1 ∨ u = n)) ∨ (c = 1 ∧ u < n) ∨ (c = 2 ∧ n ≤ u ∧ u < 2 * n))
    (p : List Hop) : ∀ u v, n ≤ u → v < n → validPath devs u p v = true →
      (⟨0, n - 1⟩ : Hop) ∈ p := by
  induction p with
  | nil =>
    intro u v hu hv hp
    rw [validPath_nil] at hp
    omega
  | cons g rest ih =>
    intro u v hu hv hp
    rw [validPath_cons, mem_neighbours_attached, hat, hat] at hp
    obtain ⟨⟨hsrc, hdst, hne⟩, hrest⟩ := hp
    by_cases hg : n ≤ g.node
    · exact List.mem_cons_of_mem g (ih g.node v hg hv hrest)
    · have hc : g.channel = 0 ∧ g.node = n - 1 := by omega
      have : g = ⟨0, n - 1⟩ := by
        cases g
        simp only [Hop.mk.injEq]
        exact hc
      rw [this]
      exact List.mem_cons_self _ _

theorem connected_within (devs : List NetDevice) (n : Nat) (hn : 1 ≤ n)
    (hat : ∀ u c, attached devs u c ↔
      (c = 0 ∧ (u = n - 1 ∨ u = n)) ∨ (c = 1 ∧ u < n) ∨ (c = 2 ∧ n ≤ u ∧ u < 2 * n))
    (u v : Nat) (hu : u < 2 * n) (hv : v < 2 * n) :
    ∃ p, validPath devs u p v = true ∧ p.length ≤ 3 ∧ p.length ≤ 2 * n := by
  have edge : ∀ (a : Nat) (g : Hop), g ∈ neighbours devs a ↔
      (((g.channel = 0 ∧ (a = n - 1 ∨ a = n)) ∨ (g.channel = 1 ∧ a < n) ∨
          (g.channel = 2 ∧ n ≤ a ∧ a < 2 * n)) ∧
        ((g.channel = 0 ∧ (g.node = n - 1 ∨ g.node = n)) ∨ (g.channel = 1 ∧ g.node < n) ∨
          (g.channel = 2 ∧ n ≤ g.node ∧ g.node < 2 * n)) ∧ g.node ≠ a) := by
    intro a g
    rw [mem_neighbours_attached, hat, hat]
  by_cases huv : u = v
  · exact ⟨[], (validPath_nil devs u v).mpr huv, by simp, by simp⟩
  by_cases hun : u < n
  · by_cases hvn : v < n
    · refine ⟨[⟨1, v⟩], ?_, by simp, by simp; omega⟩
      simp [validPath_cons, validPath_nil, edge]
      omega
    · by_cases h1 : u = n - 1
      · by_cases h2 : v = n
        · refine ⟨[⟨0, n⟩], ?_, by simp, by simp; omega⟩
          simp [validPath_cons, validPath_nil, edge]
          omega
        · refine ⟨[⟨0, n⟩, ⟨2, v⟩], ?_, by simp, by simp; omega⟩
          simp [validPath_cons, validPath_nil, edge]
          omega
      · by_cases h2 : v = n
        · refine ⟨[⟨1, n - 1⟩, ⟨0, n⟩], ?_, by simp, by simp; omega⟩
          simp [validPath_cons, validPath_nil, edge]
          omega
        · refine ⟨[⟨1, n - 1⟩, ⟨0, n⟩, ⟨2, v⟩], ?_, by simp, by simp; omega⟩
          simp [validPath_cons, validPath_nil, edge]
          omega
  · by_cases hvn : v < n
    · by_cases h1 : u = n
      · by_cases h2 : v = n - 1
        · refine ⟨[⟨0, n - 1⟩], ?_, by simp, by simp; omega⟩
          simp [validPath_cons, validPath_nil, edge]
          omega
        · refine ⟨[⟨0, n - 1⟩, ⟨1, v⟩], ?_, by simp, by simp; omega⟩
          simp [validPath_cons, validPath_nil, edge]
          omega
      · by_cases h2 : v = n - 1
        · refine ⟨[⟨2, n⟩, ⟨0, n - 1⟩], ?_, by simp, by simp; omega⟩
          simp [validPath_cons, validPath_nil, edge]
          omega
        · refine ⟨[⟨2, n⟩, ⟨0, n - 1⟩, ⟨1, v⟩], ?_, by simp, by simp; omega⟩
          simp [validPath_cons, validPath_nil, edge]
          omega
    · refine ⟨[⟨2, v⟩], ?_, by simp, by simp; omega⟩
      simp [validPath_cons, validPath_nil, edge]
      omega

/-- C4: for every 32-bit value of `nCsma`, with `n` the normalised value, the
topology `main` builds attaches nodes `n - 1` and `n` to the point-to-point
channel, nodes `0 .. n-1` to the first CSMA channel and nodes `n .. 2n-1` to the
second.  This graph is connected: between any two of the `2n` nodes the
breadth-first computation finds a route, a shortest path of at most 3 hops.
Every path from a node of one segment to a node of the other crosses the
point-to-point channel, in particular the shortest-path route.  Whenever the
setup succeeds, `PopulateRoutingTables` has recorded exactly this topology and
the routes of the world are these shortest paths. -/
theorem C4_routes_cross_link (nCsma : Nat) (h : nCsma < UINT32) :
    ∃ l, buildLinks nCsma = Except.ok l ∧
      l.world.nNodes = 2 * normalise nCsma ∧
      (l.world.channels.get? 0).map (fun c => c.kind) = some LinkKind.pointToPoint ∧
      (∀ d ∈ l.p2pDevices, d.channel = 0) ∧
      (∀ u c, attached l.world.devices u c ↔
        (c = 0 ∧ (u = normalise nCsma - 1 ∨ u = normalise nCsma)) ∨
        (c = 1 ∧ u < normalise nCsma) ∨
        (c = 2 ∧ normalise nCsma ≤ u ∧ u < 2 * normalise nCsma)) ∧
      (∀ u v, u < 2 * normalise nCsma → v < 2 * normalise nCsma →
        ∃ q, shortestRoute l.world.devices l.world.nNodes u v = some q ∧
          validPath l.world.devices u q v = true ∧ q.length ≤ 3 ∧
          (∀ p, validPath l.world.devices u p v = true → q.length ≤ p.length) ∧
          (u < normalise nCsma → normalise nCsma ≤ v → (⟨0, normalise nCsma⟩ : Hop) ∈ q) ∧
          (normalise nCsma ≤ u → v < normalise nCsma →
            (⟨0, normalise nCsma - 1⟩ : Hop) ∈ q)) ∧
      (∀ u v p, u < normalise nCsma → normalise nCsma ≤ v →
        validPath l.world.devices u p v = true → (⟨0, normalise nCsma⟩ : Hop) ∈ p) ∧
      (∀ u v p, normalise nCsma ≤ u → v < normalise nCsma →
        validPath l.world.devices u p v = true → (⟨0, normalise nCsma - 1⟩ : Hop) ∈ p) ∧
      (3 ≤ normalise nCsma → normalise nCsma ≤ 254 →
        ∃ s, setup nCsma = Except.ok s ∧ s.world.routing = some l.world.devices ∧
          ∀ u v, s.world.route u v = shortestRoute l.world.devices l.world.nNodes u v) := by
  obtain ⟨l, hl, hnodes, hat⟩ := buildLinks_attached nCsma h
  obtain ⟨l1, hl1, -, -, p3, -, -, p6, p7, -⟩ := buildLinks_spec nCsma h
  have hl2 := buildLinks_eq nCsma h
  have hn := normalise_pos nCsma
  rw [hl] at hl1
  cases hl1
  refine ⟨l, hl, hnodes, ?_, ?_, hat, ?_,
    fun u v p hu hv hp => crossing_forward _ _ hn hat p u v hu hv hp,
    fun u v p hu hv hp => crossing_backward _ _ hn hat p u v hu hv hp, ?_⟩
  · rw [hl] at hl2
    cases hl2
    rfl
  · intro d hd
    rw [p3] at hd
    simp only [List.mem_cons, List.mem_singleton, List.not_mem_nil, or_false] at hd
    rcases hd with rfl | rfl <;> rfl
  · intro u v hu hv
    obtain ⟨p, hp, hlen3, hlen⟩ := connected_within _ _ hn hat u v hu hv
    obtain ⟨q, hq, hvalid, hmin⟩ :=
      shortestRoute_spec l.world.devices l.world.nNodes u v p hp (by rw [hnodes]; exact hlen)
    exact ⟨q, hq, hvalid, Nat.le_trans (hmin p hp) hlen3, hmin,
      fun h1 h2 => crossing_forward _ _ hn hat q u v h1 h2 hvalid,
      fun h1 h2 => crossing_backward _ _ hn hat q u v h1 h2 hvalid⟩
  · intro h3 h254
    have hs := setup_eq nCsma h h3 h254
    rw [hl] at hl2
    cases hl2
    refine ⟨_, hs, ?_, ?_⟩
    · simp [csmaDevicesFor_range']
    · intro u v
      simp [World.route, csmaDevicesFor_range']

theorem C4_routes_cross_link_witness :
    3 < UINT32 ∧ ∃ l, buildLinks 3 = Except.ok l ∧ l.world.nNodes = 2 * normalise 3 ∧
      (∀ u v p, u < normalise 3 → normalise 3 ≤ v →
        validPath l.world.devices u p v = true → (⟨0, normalise 3⟩ : Hop) ∈ p) := by
  refine ⟨by decide, ?_⟩
  obtain ⟨l, hl, hn, -, -, -, -, hcut, -⟩ := C4_routes_cross_link 3 (by decide)
  exact ⟨l, hl, hn, hcut⟩

end Lab1Second
